import Mathlib

/-!
Verification development for the RiftSubsidence program
(`RiftSubsidence.py`, a Python port of the Fortran code `gforisos.f`).

The definitions below are a shallow embedding of the program: Python floats
are modelled as real numbers, mutable module state is threaded explicitly
through state records, the fixed-size arrays `DATA`/`TEM` become lists and
functions, and every place where the Python code would raise an exception
(division by zero, unbound local, list index out of range, arithmetic on
`None`) is modelled by an `Option`/`Except` result being `none`/`error`.
Loops without a structural bound take an explicit fuel argument; `none` on
fuel exhaustion is distinguished from genuine termination by the theorems,
which always exhibit or assume a successful (`some`) run.
-/

namespace RiftSubsidence

noncomputable section

/-! ### Physical constants (the PARAMETER block of the source) -/

def RHOM : ℝ := 3.35
def RHOC : ℝ := 2.78
def RHOW : ℝ := 1.03
def TASTH : ℝ := 1333.0
def DIFFUS : ℝ := 0.804e-6
def TEXPAN : ℝ := 3.28e-5
def TAUS : ℝ := 43.28
def CONDTY : ℝ := 38.544
def TCO : ℝ := 7.0e3
def DW : ℝ := 2.5e3
def IHFLW : ℕ := 1

/-- Asthenosphere density, `RHOA = RHOM*(1.0 - (TEXPAN*TASTH))` from
`setup_constants`. -/
def RHOA : ℝ := RHOM * (1 - TEXPAN * TASTH)

/-! ### The parameter set (module-level input variables of the source) -/

structure Params where
  BETMIN : ℝ
  BETMAX : ℝ
  BETINC : ℝ
  BETA2 : ℝ
  BETA3 : ℝ
  ILOAD : ℕ
  ICOMP : ℕ
  TBEG1 : ℝ
  TEND1 : ℝ
  TBEG2 : ℝ
  TEND2 : ℝ
  TBEG3 : ℝ
  TEND3 : ℝ
  TSTOP : ℝ
  ITYPE1 : ℕ
  ITYPE2 : ℕ
  ITYPE3 : ℕ
  IRIFT : ℕ
  RHOS : ℝ
  PHI0 : ℝ
  CONST : ℝ
  CYCLES : ℝ
  FRAC : ℝ
  TC : ℝ

/-! ### `check_cfg`: the ordering validation run first by `run()` -/

/-- Embedding of `check_cfg`: the conjunction of the three guarded
assertions; `false` means one of the `assert` statements raises. -/
def check_cfg (p : Params) : Bool :=
  (if 1 ≤ p.IRIFT then decide (p.TBEG1 > p.TEND1) else true) &&
  (if 2 ≤ p.IRIFT then decide (p.TBEG2 > p.TEND2) else true) &&
  (if 3 ≤ p.IRIFT then decide (p.TBEG3 > p.TEND3) else true)

/-! ### `calculate_TL`: lithospheric thickness from isostatic balance -/

/-- The value left in the global `TL` by `calculate_TL` (the quadratic is
solved, a root is selected by the 20km/200km window test, and the result is
negated) before the reporting code runs. -/
def calculate_TL_val (TC : ℝ) : ℝ :=
  let AINT := (RHOM * TEXPAN * TASTH) / 2
  let BINT := (RHOW * DW + RHOC * TCO) - (DW + TCO) * RHOM * (1 - TEXPAN * TASTH)
      - TC * (RHOC - RHOM)
  let CINT := ((TC ^ 2) * TASTH * TEXPAN) * (RHOM - RHOC) / 2
  let TL1 := (-BINT + Real.sqrt (BINT ^ 2 - 4 * AINT * CINT)) / (2 * AINT)
  let TL2 := if TL1 ≤ 20.0e3 ∨ TL1 ≥ 200.0e3 then
      (-BINT - Real.sqrt (BINT ^ 2 - 4 * AINT * CINT)) / (2 * AINT)
    else TL1
  Neg.neg TL2

/-- Embedding of `calculate_TL` as actually executed: when `TL < TC` the
guard `if TL >= TC` skips the assignment of the local `TLM`, and the
following unconditional print of `TLM` raises `UnboundLocalError`, aborting
the run; this crash is the `none` case.  (When `TL = TC` the error message
is printed but `TLM` is assigned, so execution continues.) -/
def calculate_TL (TC : ℝ) : Option ℝ :=
  let TL := calculate_TL_val TC
  if TL ≥ TC then some TL else none

/-! ### Nondimensionalisation -/

/-- The map applied to every dimensional time in
`nondimensionalise_parameters`: `(-t + TBEG1)/TIMSC`. -/
def nondimTime (TBEG1 TIMSC t : ℝ) : ℝ := (-t + TBEG1) / TIMSC

/-- The inverse map applied by the finalisation pass of `run()`:
`DATA[0][I-1] = -DATA[0][I-1]*TIMSC + TBEG1`. -/
def finalizeTime (TBEG1 TIMSC τ : ℝ) : ℝ := -τ * TIMSC + TBEG1

/-- The dimensionless schedule produced by `nondimensionalise_parameters`
(the module globals it assigns; unassigned ones keep their initial `0.0`). -/
structure Dless where
  TIMSC : ℝ
  DTBEG1 : ℝ
  DTEND1 : ℝ
  DTBEG2 : ℝ
  DTEND2 : ℝ
  DTBEG3 : ℝ
  DTEND3 : ℝ
  DTSTOP : ℝ
  DTST : ℝ
  DTAUS : ℝ

def nondimensionalise_parameters (p : Params) (TL : ℝ) : Dless :=
  let TIMSC := TL ^ 2 / (DIFFUS * 3.15e13)
  { TIMSC := TIMSC
    DTBEG1 := if 1 ≤ p.IRIFT then nondimTime p.TBEG1 TIMSC p.TBEG1 else 0
    DTEND1 := if 1 ≤ p.IRIFT then nondimTime p.TBEG1 TIMSC p.TEND1 else 0
    DTBEG2 := if 2 ≤ p.IRIFT then nondimTime p.TBEG1 TIMSC p.TBEG2 else 0
    DTEND2 := if 2 ≤ p.IRIFT then nondimTime p.TBEG1 TIMSC p.TEND2 else 0
    DTBEG3 := if 3 ≤ p.IRIFT then nondimTime p.TBEG1 TIMSC p.TBEG3 else 0
    DTEND3 := if 3 ≤ p.IRIFT then nondimTime p.TBEG1 TIMSC p.TEND3 else 0
    DTSTOP := nondimTime p.TBEG1 TIMSC p.TSTOP
    DTST := 1 / TIMSC
    DTAUS := TAUS / TIMSC }

/-! ### `setup_constants` -/

/-- The subsidence coefficients and the per-episode forcings `GP2`, `GP3`
assigned by `setup_constants`.  `GP2`/`GP3` start at the module initial
value `0.0`; note that the source guards the `GP3` assignment by
`elif IRIFT >= 3`, which is reachable only when `IRIFT >= 2` fails. -/
structure Consts where
  CONBET : ℝ
  CONTRM : ℝ
  CONB1 : ℝ
  CONB2 : ℝ
  GP2 : ℝ
  GP3 : ℝ

def setup_constants (p : Params) (TL : ℝ) (d : Dless) : Consts :=
  let CONBET :=
    if p.ICOMP = 0 then
      (if p.ILOAD = 2 then ((RHOM - RHOC) * p.TC) / (RHOA - p.RHOS)
       else if p.ILOAD = 1 then ((RHOM - RHOC) * p.TC) / (RHOA - RHOW)
       else if p.ILOAD = 0 then ((RHOM - RHOC) * p.TC) / RHOA
       else 0)
    else ((RHOM - RHOC) * p.TC) / RHOA
  let CONTRM :=
    if p.ICOMP = 0 then
      (if p.ILOAD = 2 then (TEXPAN * RHOM * TL * TASTH) / (RHOA - p.RHOS)
       else if p.ILOAD = 1 then (TEXPAN * RHOM * TL * TASTH) / (RHOA - RHOW)
       else if p.ILOAD = 0 then (TEXPAN * RHOM * TL * TASTH) / RHOA
       else 0)
    else (TEXPAN * RHOM * TL * TASTH) / RHOA
  let GP2 :=
    if 2 ≤ p.IRIFT then
      (if p.ITYPE2 = 1 then Real.log p.BETA2 / (d.DTEND2 - d.DTBEG2)
       else if p.ITYPE2 = 2 then
         Real.log p.BETA2 / (1 - Real.exp (-(d.DTEND2 - d.DTBEG2) / d.DTAUS))
       else if p.ITYPE2 = 3 then
         Real.log p.BETA2 / (Real.exp ((d.DTEND2 - d.DTBEG2) / d.DTAUS) - 1)
       else 0)
    else 0
  -- the source uses `elif IRIFT >= 3` here, so this branch is taken only
  -- when `IRIFT >= 2` is false AND `IRIFT >= 3` holds, which is impossible
  let GP3 :=
    if ¬ 2 ≤ p.IRIFT ∧ 3 ≤ p.IRIFT then
      (if p.ITYPE3 = 1 then Real.log p.BETA3 / (d.DTEND3 - d.DTBEG3)
       else if p.ITYPE3 = 2 then
         Real.log p.BETA3 / (1 - Real.exp (-(d.DTEND3 - d.DTBEG3) / d.DTAUS))
       else if p.ITYPE3 = 3 then
         Real.log p.BETA3 / (Real.exp ((d.DTEND3 - d.DTBEG3) / d.DTAUS) - 1)
       else 0)
    else 0
  ⟨CONBET, CONTRM, (RHOA - RHOW) / (RHOA - p.RHOS),
    (p.RHOS - RHOW) / (RHOA - p.RHOS), GP2, GP3⟩

/-! ### `SUBCAL`: temperature integral and subsidence -/

/-- The dimensionless depth step `DZ = 0.05` of the 21-node grid. -/
def DZ : ℝ := 0.05

/-- The loop `for I in range(2,JNP1+1): TRAP = 0.5*DZ*(TEM[..][I-2]+TEM[..][I-1]) + TRAP`
of `SUBCAL`, as a fold over the twenty panels of the grid. -/
def TRAPint (tem : ℕ → ℝ) : ℝ :=
  (List.range 20).foldl (fun acc j => 0.5 * DZ * (tem j + tem (j + 1)) + acc) 0

/-- Trapezoidal quadrature as the specification describes it: uniform
weight `DZ` on interior nodes, both end nodes weighted `DZ/2`. -/
def trapezoidRule (tem : ℕ → ℝ) : ℝ :=
  DZ * ((tem 0 + tem 20) / 2 + ∑ j ∈ Finset.Ico 1 20, tem j)

/-- The stretching factor `BETAT` computed by `SUBCAL` at elapsed episode
time `WWW`.  In the regime-4 branch the source initialises `P = 0`, `R = 0`
and sets them lazily under `JSUBS` tests; since Python passes the integer
`JSUBS` by value, every call receives `JSUBS = 0`, so in the middle segment
`P` is set to `G/(AMPL*WAVEN)` while in the final segment both `P` and `R`
keep the value `0`. -/
def BETATfun (ITYPE : ℕ) (G DTAUS AMPL WAVEN DTEND WWW : ℝ) : ℝ :=
  if ITYPE = 1 then Real.exp (G * WWW)
  else if ITYPE = 2 then Real.exp (G * (1 - Real.exp (-WWW / DTAUS)))
  else if ITYPE = 3 then Real.exp (G * (Real.exp (WWW / DTAUS) - 1))
  else if ITYPE = 4 then
    (if WWW ≤ G / (AMPL * WAVEN) then Real.exp (0.5 * WAVEN * AMPL * WWW ^ 2)
     else if WWW ≤ DTEND - G / (AMPL * WAVEN) then
       Real.exp (0.5 * WAVEN * AMPL * (G / (AMPL * WAVEN)) ^ 2
         + G * (WWW - G / (AMPL * WAVEN))
         - (AMPL / WAVEN) * (Real.cos (WAVEN * (WWW - G / (AMPL * WAVEN))) - 1))
     else
       Real.exp (0.5 * WAVEN * AMPL * (0 : ℝ) ^ 2 + G * ((0 : ℝ) - 0)
         - (AMPL / WAVEN) * (Real.cos (WAVEN * ((0 : ℝ) - 0)) - 1)
         + WAVEN * AMPL * ((G * (WWW - 0)) / (WAVEN * AMPL) - 0.5 * (WWW - 0) ^ 2)))
  else 0

/-- Result of one `SUBCAL` call: the value stored into `DATA[1][K-1]` and
the states of the module globals `TRINIT` and `SINIT` after the call. -/
structure SubcalRes where
  stored : ℝ
  TRINIT : ℝ
  SINIT : ℝ

/-- Embedding of `SUBCAL`.  `tem` is the row `TEM[JGI-1]` the call reads;
`TRINIT`/`SINIT` are the module globals on entry. -/
def SUBCAL (T : ℝ) (IADV : ℕ) (CONBET CONTRM DTEND G DTAUS : ℝ)
    (ITYPE KRR : ℕ) (DTBEGX BETA1 AMPL WAVEN : ℝ)
    (tem : ℕ → ℝ) (TRINIT SINIT : ℝ) : SubcalRes :=
  if IADV = 1 then
    let WWW := if KRR = 0 then T else T - DTBEGX
    let BETAT := BETATfun ITYPE G DTAUS AMPL WAVEN DTEND WWW
    let TRAP := TRAPint tem
    let TRINIT' := if T = DTEND then TRAP else TRINIT
    let SUBS :=
      if KRR = 0 then CONBET * (1 - 1 / BETAT) + CONTRM * (0.5 - TRAP)
      else CONBET * (2 - 1 / BETAT - 1 / BETA1) + CONTRM * (0.5 - TRAP)
    let stored := SUBS * 1.0e-3
    let SINIT' := if T = DTEND then stored else SINIT
    ⟨stored, TRINIT', SINIT'⟩
  else
    let TRAP := TRAPint tem
    ⟨CONTRM * (TRINIT - TRAP) * 1.0e-3 + SINIT, TRINIT, SINIT⟩

/-! ### `COMPAC`: Newton-Raphson compaction correction -/

/-- One Newton-Raphson update of the `COMPAC` inner loop:
`F[J] = F[J-1] - X1/X2`.  The `none` case is the `ZeroDivisionError`
Python raises when the derivative `X2` vanishes. -/
def COMPACstep (RHOS PHI0 CONST S x : ℝ) : Option ℝ :=
  let DLOB := RHOA - RHOS
  let ELOB := PHI0 * CONST * (RHOS - RHOW)
  let FLOB := PHI0 * (RHOS - RHOW)
  let X1 := x * DLOB - S * RHOA + ELOB * (1 - Real.exp (-x / CONST))
  let X2 := DLOB + FLOB * Real.exp (-x / CONST)
  if X2 = 0 then none else some (x - X1 / X2)

/-- The `while(1)` loop of `COMPAC` for one row.  The counter `J` starts at
1; after each update with `ERROR > 1.E-5` it is incremented and the loop
breaks when `J >= 30`, after which the source reads `F[J] = F[30]` from the
30-element list `F` - an out-of-range access (`IndexError`), modelled by
`none`.  The fuel argument counts the updates still allowed after the
current one, so the call below starts it at 28 (updates `F[1]` .. `F[29]`). -/
def COMPACloop (RHOS PHI0 CONST S : ℝ) : ℝ → ℕ → Option ℝ
  | x, fuel =>
    match COMPACstep RHOS PHI0 CONST S x with
    | none => none
    | some x' =>
      if |x' - x| > 1.0e-5 then
        match fuel with
        | 0 => none
        | n + 1 => COMPACloop RHOS PHI0 CONST S x' n
      else some x'

/-- Processing of one table row `S = DATA[1][I-1]` by `COMPAC`, starting
the iteration from `F[0] = S*ALOB` with `ALOB = RHOA/(RHOA-RHOS)`. -/
def COMPACrow (RHOS PHI0 CONST S : ℝ) : Option ℝ :=
  COMPACloop RHOS PHI0 CONST S (S * (RHOA / (RHOA - RHOS))) 28

/-! ### `TIMSTR`: the explicit finite-difference solver -/

/-- The arguments of one `TIMSTR` call together with the module globals
`AMPL` and `WAVEN` it reads (constant during the call). -/
structure Episode where
  G : ℝ
  DTEND : ℝ
  DTSTOP : ℝ
  DTAUS : ℝ
  CONBET : ℝ
  CONTRM : ℝ
  DTBEGX : ℝ
  DTBEGY : ℝ
  DTST : ℝ
  ITYPE : ℕ
  KRR : ℕ
  IRIFT : ℕ
  BETA1 : ℝ
  CONB1 : ℝ
  CONB2 : ℝ
  AMPL : ℝ
  WAVEN : ℝ

/-- The halt time `DTHALT` recomputed inside the loop of `TIMSTR`;
it depends only on quantities that are constant during the call. -/
def DTHALTfun (e : Episode) : ℝ :=
  if e.KRR = 0 ∧ e.IRIFT = 2 then e.DTBEGX
  else if e.KRR = 0 ∧ e.IRIFT = 3 then e.DTBEGX
  else if e.KRR = 1 ∧ e.IRIFT = 3 then e.DTBEGY
  else e.DTSTOP

/-- The step size `DTI` chosen once at the head of `TIMSTR`:
`DTC = DZ**2/2`, `GMAX = AMPL + G`, `DTCFL = DZ/GMAX`,
`DTI = min(min(DTC, DTCFL), DTST)`. -/
def timstrDTI (G AMPL DTST : ℝ) : ℝ :=
  min (min (DZ ^ 2 / 2) (DZ / (AMPL + G))) DTST

/-- One output row of the table `DATA`, columns
(time, subsidence, heat flow, strain rate); a field is `none` when the
corresponding `DATA` slot still holds its initial `None`. -/
structure Row where
  time : Option ℝ
  subs : Option ℝ
  hflw : Option ℝ
  srate : Option ℝ

/-- The sentinel row written between two beta groups by `run()`:
`DATA[0..1]` are set to `None` and `DATA[2..3]` are never written. -/
def sentinelRow : Row := ⟨none, none, none, none⟩

/-- The strain rate recorded into `DATA[3][K-1]` inside the time loop of
`TIMSTR` (the `IADV == 1` branch); `none` when no branch writes the slot. -/
def SRATEfun (e : Episode) (T : ℝ) : Option ℝ :=
  if e.ITYPE = 1 then some e.G
  else if e.ITYPE = 2 then some (e.G * Real.exp (-T / e.DTAUS) / e.DTAUS)
  else if e.ITYPE = 3 then some (e.G * Real.exp (T / e.DTAUS) / e.DTAUS)
  else if e.ITYPE = 4 then
    (if T ≤ e.G / (e.AMPL * e.WAVEN) then some (T * e.AMPL * e.WAVEN)
     else if T ≤ e.DTEND - e.G / (e.AMPL * e.WAVEN) then
       some (e.AMPL * Real.sin (e.WAVEN * (T - e.G / (e.WAVEN * e.AMPL))) + e.G)
     else some ((e.DTEND - T) * e.WAVEN * e.AMPL))
  else none

/-- The strain rate written into the initial row before the loop
(lines with the slightly different `<`/`>=` comparisons of the source). -/
def SRATE0fun (e : Episode) (T : ℝ) : Option ℝ :=
  if e.ITYPE = 1 then some e.G
  else if e.ITYPE = 2 then some (e.G * Real.exp (-T / e.DTAUS) / e.DTAUS)
  else if e.ITYPE = 3 then some (e.G * Real.exp (T / e.DTAUS) / e.DTAUS)
  else if e.ITYPE = 4 then
    (if T < e.G / (e.AMPL * e.WAVEN) then some (T * e.AMPL * e.WAVEN)
     else if T < e.DTEND - e.G / (e.AMPL * e.WAVEN) then
       some (e.AMPL * Real.sin (e.WAVEN * (T - e.G / (e.WAVEN * e.AMPL))) + e.G)
     else some ((e.DTEND - T) * e.WAVEN * e.AMPL))
  else none

/-- The piecewise velocity factor `GVECT` of the regime-4 advection term
inside the loop (for `KRR > 0` the source shifts the value, but not the
segment tests, by `DTBEGX`). -/
def GVECTfun (e : Episode) (T : ℝ) : ℝ :=
  if e.KRR = 0 then
    (if T ≤ e.G / (e.AMPL * e.WAVEN) then T * e.AMPL * e.WAVEN
     else if T ≤ e.DTEND - e.G / (e.AMPL * e.WAVEN) then
       e.AMPL * Real.sin (e.WAVEN * (T - e.G / (e.WAVEN * e.AMPL))) + e.G
     else (e.DTEND - T) * e.WAVEN * e.AMPL)
  else
    (if T ≤ e.G / (e.AMPL * e.WAVEN) then (T - e.DTBEGX) * e.AMPL * e.WAVEN
     else if T ≤ e.DTEND - e.G / (e.AMPL * e.WAVEN) then
       e.AMPL * Real.sin (e.WAVEN * (T - e.DTBEGX - e.G / (e.WAVEN * e.AMPL))) + e.G
     else (e.DTEND - (T - e.DTBEGX)) * e.WAVEN * e.AMPL)

/-- The mutable state of the `TIMSTR` loop: time, step sizes, the buffer
selector `JGI`, the flags, the two live rows `TEM[0]`/`TEM[1]` of the
temperature array, the output table, the time of the most recently written
row (`DATA[0][K-1]`), and the carry globals `TRINIT`/`SINIT`. -/
structure TState where
  T : ℝ
  DT : ℝ
  DTI : ℝ
  JGI : ℕ
  JFLAG : ℕ
  IADV : ℕ
  temA : ℕ → ℝ
  temB : ℕ → ℝ
  data : List Row
  lastT : ℝ
  TRINIT : ℝ
  SINIT : ℝ

/-- The scalar multiplier of the advection difference, by regime.  It is
`0` when `IADV` is not 1 (advection off) and in the `ITYPE` default case
(the Python `ADV = 0.` initialisation). -/
def advCoeff (e : Episode) (s : TState) : ℝ :=
  if s.IADV = 1 then
    (if e.ITYPE = 1 then e.G
     else if e.ITYPE = 2 then
       (if e.KRR = 0 then e.G * Real.exp (-s.T / e.DTAUS) / e.DTAUS
        else e.G * Real.exp (-(s.T - e.DTBEGX) / e.DTAUS) / e.DTAUS)
     else if e.ITYPE = 3 then
       (if e.KRR = 0 then e.G * Real.exp (s.T / e.DTAUS) / e.DTAUS
        else e.G * Real.exp ((s.T - e.DTBEGX) / e.DTAUS) / e.DTAUS)
     else if e.ITYPE = 4 then GVECTfun e s.T
     else 0)
  else 0

/-- The temperature row whose differences the advection term reads.  In
the `ITYPE = 2`, `KRR > 0` branch the source indexes `TEM[JGI]` instead of
`TEM[JGI-1]`; for `JGI = 2` that row of `TEM` is never initialised, so the
arithmetic on its `None` entries raises - the `none` case. -/
def advBuffer (e : Episode) (s : TState) : Option (ℕ → ℝ) :=
  if s.IADV = 1 ∧ e.ITYPE = 2 ∧ e.KRR ≠ 0 then
    (if s.JGI = 1 then some s.temB else none)
  else some (if s.JGI = 1 then s.temA else s.temB)

/-- The interior update of one time step: for the written indices
`1 ≤ i ≤ 19` (source `J = 2 .. JN`), explicit Euler on the central second
difference minus the advection term; all other indices of the written
buffer keep their previous values. -/
def stepTem (e : Episode) (s : TState) : Option ((ℕ → ℝ) × (ℕ → ℝ)) :=
  match advBuffer e s with
  | none => none
  | some abuf =>
    let cur := if s.JGI = 1 then s.temA else s.temB
    let tgt := if s.JGI = 1 then s.temB else s.temA
    let newTgt := fun i =>
      if 1 ≤ i ∧ i ≤ 19 then
        cur i + s.DT * ((cur (i + 1) - 2 * cur i + cur (i - 1)) / DZ ^ 2
          - advCoeff e s * (1 - i * DZ) * (abuf (i + 1) - abuf (i - 1)) / (2 * DZ))
      else tgt i
    if s.JGI = 1 then some (s.temA, newTgt) else some (newTgt, s.temB)

/-- Outcome of one pass through the `while(1)` body of `TIMSTR`:
either the loop continues with the new state, or it breaks. -/
inductive StepRes where
  | cont (s : TState)
  | done (s : TState)

/-- The state carried by a `StepRes`. -/
def StepRes.state : StepRes → TState
  | .cont s => s
  | .done s => s

/-- The first half of the loop body: temperature update, `T = T + DT`,
restore `DT = DTI`, swap the buffers, and (when the save test fires)
record a row via `SUBCAL` together with heat flow and strain rate. -/
def stepAdvance (e : Episode) (s : TState) : Option TState :=
  match stepTem e s with
  | none => none
  | some (tA, tB) =>
    let T := s.T + s.DT
    let JGI : ℕ := if s.JGI = 1 then 2 else 1
    let cur := if JGI = 1 then tA else tB
    let DTHALT := DTHALTfun e
    if T ≥ s.lastT + e.DTST ∨ T = DTHALT ∨ T = e.DTEND then
      let sc := SUBCAL T s.IADV e.CONBET e.CONTRM e.DTEND e.G e.DTAUS
        e.ITYPE e.KRR e.DTBEGX e.BETA1 e.AMPL e.WAVEN cur s.TRINIT s.SINIT
      let srate : Option ℝ :=
        if s.IADV = 0 then some 0
        else if s.IADV = 1 then SRATEfun e T
        else none
      let row : Row :=
        ⟨some T, some sc.stored,
         if IHFLW = 1 then some (cur 19 / DZ) else none,
         if IHFLW = 1 then srate else none⟩
      some { s with T := T, DT := s.DTI, JGI := JGI, temA := tA, temB := tB,
                    data := s.data ++ [row], lastT := T,
                    TRINIT := sc.TRINIT, SINIT := sc.SINIT }
    else
      some { s with T := T, DT := s.DTI, JGI := JGI, temA := tA, temB := tB }

/-- The second half of the loop body: the `if/elif` ladder deciding
whether to continue, clip `DT` to the stretching end or the halt time,
switch advection off, or break. -/
def stepBranch (e : Episode) (s : TState) : StepRes :=
  let DTHALT := DTHALTfun e
  if s.T + s.DT ≤ e.DTEND then .cont s
  else if s.JFLAG = 0 then .cont { s with JFLAG := 1, DT := e.DTEND - s.T }
  else if s.T + s.DT < DTHALT ∧ s.JFLAG = 1 then .cont { s with IADV := 0 }
  else if s.T + s.DT ≥ DTHALT ∧ s.JFLAG ≠ 2 then
    (if DTHALT - s.T ≠ 0 then .cont { s with JFLAG := 2, DT := DTHALT - s.T }
     else .done { s with JFLAG := 2, DT := DTHALT - s.T })
  else .done s

/-- One full pass through the `while(1)` body of `TIMSTR`. -/
def TIMSTRstep (e : Episode) (s : TState) : Option StepRes :=
  (stepAdvance e s).map (stepBranch e)

/-- The `while(1)` loop of `TIMSTR`, with fuel. -/
def TIMSTRrun (e : Episode) : ℕ → TState → Option TState
  | 0, _ => none
  | n + 1, s =>
    match TIMSTRstep e s with
    | none => none
    | some (.done s') => some s'
    | some (.cont s') => TIMSTRrun e n s'

/-- The driver state that survives between `TIMSTR` calls: the output
table, the last written time, the temperature buffers, the carry globals
`TRINIT`/`SINIT`, and the regime-4 globals `AMPL`/`WAVEN`. -/
structure SimState where
  data : List Row
  lastT : ℝ
  temA : ℕ → ℝ
  temB : ℕ → ℝ
  TRINIT : ℝ
  SINIT : ℝ
  AMPL : ℝ
  WAVEN : ℝ
  GP2g : ℝ

/-- The entry code of `TIMSTR`: step-size selection, initial time, and -
for a first episode (`KRR = 0`) - the conductive temperature profile
`1 - DZ*(J-1)` in both buffers and the initial output row. -/
def TIMSTRinit (e : Episode) (st : SimState) : TState :=
  let DTI := timstrDTI e.G e.AMPL e.DTST
  let T : ℝ := if e.KRR = 0 then 0 else e.DTBEGX
  let temA := if e.KRR = 0 then (fun j : ℕ => 1 - DZ * j) else st.temA
  let temB := if e.KRR = 0 then (fun j : ℕ => 1 - DZ * j) else st.temB
  let row0 : Row :=
    ⟨some T, some 0,
     if IHFLW = 1 then some 1 else none,
     if IHFLW = 1 then SRATE0fun e T else none⟩
  { T := T, DT := DTI, DTI := DTI, JGI := 1, JFLAG := 0, IADV := 1,
    temA := temA, temB := temB,
    data := if e.KRR = 0 then st.data ++ [row0] else st.data,
    lastT := if e.KRR = 0 then T else st.lastT,
    TRINIT := st.TRINIT, SINIT := st.SINIT }

/-- One complete `TIMSTR` call: initialise, run the loop, hand the data
and carry state back to the driver. -/
def TIMSTR (e : Episode) (fuel : ℕ) (st : SimState) : Option SimState :=
  match TIMSTRrun e fuel (TIMSTRinit e st) with
  | none => none
  | some s' => some { st with data := s'.data, lastT := s'.lastT,
                              temA := s'.temA, temB := s'.temB,
                              TRINIT := s'.TRINIT, SINIT := s'.SINIT }

/-! ### `set_dless_constants` and the driver `run()` -/

/-- The program constant `PI = 3.1415927` (not the real number pi). -/
def PI : ℝ := 3.1415927

/-- The regime-4 fixed-point loop of `set_dless_constants`: iterate the
closed-form update of `GP1` until two successive values differ by at most
`1.E-6`.  The source imposes no iteration cap, so the model takes fuel and
returns the final `GP1` together with the wavenumber `WAVEN`. -/
def rgm4go (CG DTEND1 CYCLES AMPL : ℝ) : ℝ → ℕ → Option (ℝ × ℝ)
  | GP1, fuel =>
    let WAVEL := DTEND1 / (CYCLES + GP1 / (PI * AMPL))
    let WAVEN := 2 * PI / WAVEL
    let ALOB := 2 * PI * DTEND1 / WAVEL
    let BLOB := AMPL * WAVEL / (2 * PI * DTEND1)
    let CLOB := WAVEL / (2 * PI * AMPL * DTEND1)
    let GP2 := CG + BLOB * (Real.cos (ALOB - 2 * GP1 / AMPL) - 1) + GP1 ^ 2 * CLOB
    if |GP2 - GP1| > 1.0e-6 then
      match fuel with
      | 0 => none
      | n + 1 => rgm4go CG DTEND1 CYCLES AMPL GP2 n
    else some (GP2, WAVEN)

/-- Embedding of `set_dless_constants`.  Returns the updated driver state
(its module globals `AMPL` and `WAVEN`; the regime-4 loop assigns a local
`GP2`, not the module global, which therefore survives) together with the
forcing magnitude `GP1` for the first episode.  For `ITYPE1` outside 1..4
the source would leave the global `GP1` at its previous value; the model
returns its initial value `0` (no claim touches that path). -/
def set_dless_constants (p : Params) (d : Dless) (fuel : ℕ) (BETA1 : ℝ)
    (st : SimState) : Option (SimState × ℝ) :=
  if p.ITYPE1 = 1 then some (st, Real.log BETA1 / d.DTEND1)
  else if p.ITYPE1 = 2 then
    some (st, Real.log BETA1 / (1 - Real.exp (-d.DTEND1 / d.DTAUS)))
  else if p.ITYPE1 = 3 then
    some (st, Real.log BETA1 / (Real.exp (d.DTEND1 / d.DTAUS) - 1))
  else if p.ITYPE1 = 4 then
    let CG := Real.log BETA1 / d.DTEND1
    let AMPL := p.FRAC * Real.log BETA1 / d.DTEND1
    match rgm4go CG d.DTEND1 p.CYCLES AMPL CG fuel with
    | none => none
    | some (GP1, WAVEN) =>
      some ({ st with AMPL := AMPL, WAVEN := WAVEN }, GP1)
  else some (st, 0)

/-- The first `TIMSTR` call of the sweep body
(`TIMSTR(GP1,DTEND1,DTSTOP,DTAUS,CONBET,CONTRM,DTBEG2,DTBEG3,DTST,ITYPE1,IHFLW,0,IRIFT,BETA1,CONB1,CONB2)`). -/
def episode1 (p : Params) (d : Dless) (c : Consts) (GP1 BETA1 : ℝ)
    (st : SimState) : Episode :=
  ⟨GP1, d.DTEND1, d.DTSTOP, d.DTAUS, c.CONBET, c.CONTRM, d.DTBEG2, d.DTBEG3,
   d.DTST, p.ITYPE1, 0, p.IRIFT, BETA1, c.CONB1, c.CONB2, st.AMPL, st.WAVEN⟩

/-- The second `TIMSTR` call (`KRR = 1`), using the module global `GP2`. -/
def episode2 (p : Params) (d : Dless) (c : Consts) (BETA1 : ℝ)
    (st : SimState) : Episode :=
  ⟨st.GP2g, d.DTEND2, d.DTSTOP, d.DTAUS, c.CONBET, c.CONTRM, d.DTBEG2, d.DTBEG3,
   d.DTST, p.ITYPE2, 1, p.IRIFT, BETA1, c.CONB1, c.CONB2, st.AMPL, st.WAVEN⟩

/-- The third `TIMSTR` call (`KRR = 2`), using `GP3` and the effective
stretching factor `BETA12 = BETA1*BETA2`. -/
def episode3 (p : Params) (d : Dless) (c : Consts) (BETA12 : ℝ)
    (st : SimState) : Episode :=
  ⟨c.GP3, d.DTEND3, d.DTSTOP, d.DTAUS, c.CONBET, c.CONTRM, d.DTBEG3, d.DTBEG3,
   d.DTST, p.ITYPE3, 2, p.IRIFT, BETA12, c.CONB1, c.CONB2, st.AMPL, st.WAVEN⟩

/-- One pass through the body of the beta sweep loop of `run()`:
forcing derivation, then episodes 1, 2, 3 as `IRIFT` requires.  `BETA12`
is assigned only under `if IRIFT == 3`, so a hypothetical `IRIFT > 3`
would hit an unbound name at the third call - the inner `none`. -/
def sweepBody (p : Params) (d : Dless) (c : Consts) (fuel : ℕ) (BETA1 : ℝ)
    (st : SimState) : Option SimState :=
  match set_dless_constants p d fuel BETA1 st with
  | none => none
  | some (st0, GP1) =>
    match TIMSTR (episode1 p d c GP1 BETA1 st0) fuel st0 with
    | none => none
    | some st1 =>
      if 2 ≤ p.IRIFT then
        match TIMSTR (episode2 p d c BETA1 st1) fuel st1 with
        | none => none
        | some st2 =>
          if 3 ≤ p.IRIFT then
            (if p.IRIFT = 3 then
              TIMSTR (episode3 p d c (BETA1 * p.BETA2) st2) fuel st2
             else none)
          else some st2
      else some st1

/-- Appending the sentinel row between two beta groups
(`K = K+1; DATA[0][K-1] = None; DATA[1][K-1] = None; K = K+1`). -/
def appendSentinel (st : SimState) : SimState :=
  { st with data := st.data ++ [sentinelRow] }

/-- The beta sweep `while(1)` loop of `run()`: run the body, increment
`BETA1`, and continue (after inserting the sentinel row) exactly when the
incremented value still satisfies `BETA1 <= BETMAX`. -/
def sweepGo (p : Params) (d : Dless) (c : Consts) (fuel : ℕ) :
    ℕ → ℝ → SimState → Option SimState
  | 0, _, _ => none
  | n + 1, BETA1, st =>
    match sweepBody p d c fuel BETA1 st with
    | none => none
    | some st' =>
      if BETA1 + p.BETINC ≤ p.BETMAX then
        sweepGo p d c fuel n (BETA1 + p.BETINC) (appendSentinel st')
      else some st'

/-- The driver state at the start of `run()`: empty table, reset carry
globals, `AMPL = 1`, `WAVEN = 1`, and the `GP2` global as left by
`setup_constants`.  The fresh `TEM` rows hold `None` in the source; the
model uses the constant 0 function, which the first (`KRR = 0`) `TIMSTR`
call overwrites before any read. -/
def initialSim (c : Consts) : SimState :=
  ⟨[], 0, fun _ => 0, fun _ => 0, 0, 0, 1, 1, c.GP2⟩

/-- Failure modes of a `run()` call distinguished by the model. -/
inductive RunError where
  | badOrdering
  | tlAbort
  | solver

/-- Embedding of `run()` up to the end of the beta sweep (the state handed
to the finalisation pass): validation first, then `calculate_TL`,
nondimensionalisation, constant setup, and the sweep. -/
def run (p : Params) (fuel outerFuel : ℕ) : Except RunError SimState :=
  if check_cfg p then
    match calculate_TL p.TC with
    | none => .error .tlAbort
    | some TL =>
      let d := nondimensionalise_parameters p TL
      let c := setup_constants p TL d
      match sweepGo p d c fuel outerFuel p.BETMIN (initialSim c) with
      | none => .error .solver
      | some st => .ok st
  else .error .badOrdering

/-- The rows `l` all carry a present (non-sentinel) time stamp, the time
stamps are non-decreasing along `l`, and the first one is at least `t`. -/
def monoFrom : ℝ → List Row → Prop
  | _, [] => True
  | t, r :: rs => ∃ x, r.time = some x ∧ t ≤ x ∧ monoFrom x rs

/-- The loop invariant of the `TIMSTR` time loop: the step sizes stay in
`[0, DTI]`, the flag stays in 0..2, and the pending time `T + DT` never
overshoots the stretching end (while `JFLAG = 0`) or the halt time
(afterwards). -/
def TInv (e : Episode) (s : TState) : Prop :=
  0 < s.DTI ∧ 0 ≤ s.DT ∧ s.DT ≤ s.DTI ∧ s.JFLAG ≤ 2
  ∧ (s.JFLAG = 0 → s.T + s.DT ≤ e.DTEND)
  ∧ (s.JFLAG ≠ 0 → s.T + s.DT ≤ DTHALTfun e)

/-- Termination measure for the `TIMSTR` loop: full steps left until the
halt time, weighted, plus credit for the flag transitions still to come. -/
def TMeasure (e : Episode) (s : TState) : ℕ :=
  3 * Nat.ceil ((DTHALTfun e - (s.T + s.DT)) / s.DTI) + (2 - s.JFLAG)

/-- The default parameter set of the source (the `INITVR` block). -/
def defaultP : Params :=
  { BETMIN := 1.5, BETMAX := 2.0, BETINC := 0.5, BETA2 := 1.1, BETA3 := 1.1,
    ILOAD := 1, ICOMP := 0,
    TBEG1 := 160, TEND1 := 100, TBEG2 := 60, TEND2 := 50,
    TBEG3 := 20, TEND3 := 10,
    TSTOP := 0, ITYPE1 := 1, ITYPE2 := 1, ITYPE3 := 1, IRIFT := 1,
    RHOS := 2.6, PHI0 := 0.6, CONST := 2.0, CYCLES := 1.5, FRAC := 0.8,
    TC := 30000 }

/-- The lithospheric thickness computed for the default crustal
thickness. -/
def TLdefault : ℝ := calculate_TL_val defaultP.TC

/-- The dimensionless schedule for the default parameter set. -/
def dDefault : Dless := nondimensionalise_parameters defaultP TLdefault

/-- The subsidence constants for the default parameter set. -/
def cDefault : Consts := setup_constants defaultP TLdefault dDefault

/-- A concrete regime-1 episode used to instantiate step-level theorems. -/
def probeEpisode : Episode :=
  { G := 0, DTEND := 0, DTSTOP := 0, DTAUS := 1, CONBET := 0, CONTRM := 0,
    DTBEGX := 0, DTBEGY := 0, DTST := 5, ITYPE := 1, KRR := 0, IRIFT := 1,
    BETA1 := 2, CONB1 := 0, CONB2 := 0, AMPL := 1, WAVEN := 1 }

/-- A concrete loop state, past its halt time with `JFLAG = 2`, used to
instantiate step-level theorems. -/
def probeState : TState :=
  { T := 10, DT := 1, DTI := 1, JGI := 1, JFLAG := 2, IADV := 0,
    temA := fun _ => 1, temB := fun _ => 1, data := [], lastT := 20,
    TRINIT := 0, SINIT := 0 }

/-! ## Theorems -/

/-- The fold computing `TRAP` in `SUBCAL` is the trapezoidal quadrature:
interior nodes weighted `DZ`, the two boundary nodes weighted `DZ/2`. -/
theorem TRAPint_eq_trapezoidRule (tem : ℕ → ℝ) :
    TRAPint tem = trapezoidRule tem := by
  simp only [TRAPint, trapezoidRule, List.range_succ, List.foldl_append,
    List.foldl_cons, List.foldl_nil, List.range_zero,
    Finset.sum_Ico_eq_sum_range, Finset.sum_range_succ, Finset.sum_range_zero]
  norm_num
  ring

/-- C5: the finalisation map `t_out = -DT*TIMSC + TBEG1` applied by the
driver after the sweep is, over the reals, the exact inverse of the
nondimensionalisation map `t ↦ (TBEG1 - t)/TIMSC`: for every dimensional
time `t` and every `TIMSC > 0` the composition returns `t`. -/
theorem C5_time_roundtrip (TBEG1 TIMSC t : ℝ) (h : 0 < TIMSC) :
    finalizeTime TBEG1 TIMSC (nondimTime TBEG1 TIMSC t) = t := by
  unfold finalizeTime nondimTime
  field_simp

/-- Witness for C5 at `TBEG1 = 160`, `TIMSC = 545`, `t = 100`. -/
theorem C5_time_roundtrip_witness :
    (0 : ℝ) < 545 ∧ finalizeTime 160 545 (nondimTime 160 545 100) = 100 :=
  ⟨by norm_num, C5_time_roundtrip 160 545 100 (by norm_num)⟩

/-- C1: the subsidence value stored into `DATA[1][K-1]` by `SUBCAL` is the
piecewise formula times `1e-3`: while advection is active it is
`CONBET*(1 - 1/BETAT) + CONTRM*(0.5 - TRAP)` for the first rifting episode
(`KRR = 0`) and `CONBET*(2 - 1/BETAT - 1/BETA_previous) + CONTRM*(0.5 - TRAP)`
for a later episode, with `TRAP` the trapezoidal integral of the current
temperature buffer; after stretching ends it is
`CONTRM*(TRAP_at_end - TRAP)` (scaled) plus the subsidence recorded at the
stretching end - the final conjunct shows that at `T = DTEND` the call
snapshots exactly those two quantities into `TRINIT` and `SINIT`. -/
theorem C1_SUBCAL_piecewise
    (T CONBET CONTRM DTEND G DTAUS DTBEGX BETA1 AMPL WAVEN : ℝ)
    (IADV ITYPE KRR : ℕ) (tem : ℕ → ℝ) (TRINIT SINIT : ℝ) :
    (IADV = 1 → KRR = 0 →
      (SUBCAL T IADV CONBET CONTRM DTEND G DTAUS ITYPE KRR DTBEGX BETA1
          AMPL WAVEN tem TRINIT SINIT).stored
        = (CONBET * (1 - 1 / BETATfun ITYPE G DTAUS AMPL WAVEN DTEND T)
            + CONTRM * (0.5 - trapezoidRule tem)) * 1.0e-3)
    ∧ (IADV = 1 → KRR ≠ 0 →
      (SUBCAL T IADV CONBET CONTRM DTEND G DTAUS ITYPE KRR DTBEGX BETA1
          AMPL WAVEN tem TRINIT SINIT).stored
        = (CONBET * (2 - 1 / BETATfun ITYPE G DTAUS AMPL WAVEN DTEND (T - DTBEGX)
              - 1 / BETA1)
            + CONTRM * (0.5 - trapezoidRule tem)) * 1.0e-3)
    ∧ (IADV ≠ 1 →
      (SUBCAL T IADV CONBET CONTRM DTEND G DTAUS ITYPE KRR DTBEGX BETA1
          AMPL WAVEN tem TRINIT SINIT).stored
        = CONTRM * (TRINIT - trapezoidRule tem) * 1.0e-3 + SINIT)
    ∧ (IADV = 1 → T = DTEND →
      (SUBCAL T IADV CONBET CONTRM DTEND G DTAUS ITYPE KRR DTBEGX BETA1
          AMPL WAVEN tem TRINIT SINIT).TRINIT = trapezoidRule tem
      ∧ (SUBCAL T IADV CONBET CONTRM DTEND G DTAUS ITYPE KRR DTBEGX BETA1
          AMPL WAVEN tem TRINIT SINIT).SINIT
        = (SUBCAL T IADV CONBET CONTRM DTEND G DTAUS ITYPE KRR DTBEGX BETA1
            AMPL WAVEN tem TRINIT SINIT).stored) := by
  refine ⟨fun h1 h2 => ?_, fun h1 h2 => ?_, fun h1 => ?_, fun h1 h2 => ?_⟩
  · simp [SUBCAL, h1, h2, TRAPint_eq_trapezoidRule]
  · simp [SUBCAL, h1, h2, TRAPint_eq_trapezoidRule]
  · simp [SUBCAL, h1, TRAPint_eq_trapezoidRule]
  · simp [SUBCAL, h1, h2, TRAPint_eq_trapezoidRule]

/-- Witness for C1: the advecting first-episode branch evaluated at a
concrete input. -/
theorem C1_SUBCAL_piecewise_witness :
    (SUBCAL 1 1 2 3 5 7 1 1 0 0 4 1 1 (fun _ => 1) 0 0).stored
      = (2 * (1 - 1 / BETATfun 1 7 1 1 1 5 1)
          + 3 * (0.5 - trapezoidRule fun _ => 1)) * 1.0e-3 :=
  (C1_SUBCAL_piecewise 1 2 3 5 7 1 0 4 1 1 1 1 0 (fun _ => 1) 0 0).1 rfl rfl

/-- C2: because `setup_constants` guards the `GP3` assignment with
`elif IRIFT >= 3` (dead under `IRIFT >= 2`), a three-episode run leaves
`GP3` at its initial value `0`, while the regime-1 formula the claim (and
the source comment) prescribe, `ln(BETA3)/(DTEND3 - DTBEG3)`, is nonzero
for every admissible input.  The third `TIMSTR` call of the sweep body
receives exactly this `GP3` (definition `episode3`). -/
theorem C2_GP3_never_assigned (p : Params) (TL : ℝ) (d : Dless)
    (h3 : p.IRIFT = 3) (hb : 1 < p.BETA3) (hd : d.DTBEG3 < d.DTEND3) :
    (setup_constants p TL d).GP3 = 0
    ∧ Real.log p.BETA3 / (d.DTEND3 - d.DTBEG3) ≠ 0 := by
  constructor
  · simp [setup_constants, h3]
  · have hl : 0 < Real.log p.BETA3 := Real.log_pos hb
    have hdd : 0 < d.DTEND3 - d.DTBEG3 := by linarith
    exact ne_of_gt (div_pos hl hdd)

/-- Witness for C2 at the default parameters with `IRIFT = 3` and a
concrete dimensionless schedule. -/
theorem C2_GP3_never_assigned_witness :
    ({ defaultP with IRIFT := 3 }.IRIFT = 3 ∧ (1 : ℝ) < 1.1 ∧ (1 : ℝ) < 2)
    ∧ ((setup_constants { defaultP with IRIFT := 3 } 117512
          ⟨545, 0, 0.11, 0.18, 0.2, 1, 2, 0.29, 0.0018, 0.079⟩).GP3 = 0
        ∧ Real.log ({ defaultP with IRIFT := 3 } : Params).BETA3
            / ((2 : ℝ) - 1) ≠ 0) :=
  ⟨⟨rfl, by norm_num, by norm_num⟩,
    C2_GP3_never_assigned { defaultP with IRIFT := 3 } 117512
      ⟨545, 0, 0.11, 0.18, 0.2, 1, 2, 0.29, 0.0018, 0.079⟩
      rfl (by norm_num [defaultP]) (by norm_num)⟩

/-- The validation `check_cfg` fails exactly when some active episode has
`TBEG <= TEND`. -/
theorem check_cfg_false_iff (p : Params) :
    check_cfg p = false ↔
      (1 ≤ p.IRIFT ∧ p.TBEG1 ≤ p.TEND1) ∨ (2 ≤ p.IRIFT ∧ p.TBEG2 ≤ p.TEND2)
        ∨ (3 ≤ p.IRIFT ∧ p.TBEG3 ≤ p.TEND3) := by
  have h0 : check_cfg p = false ↔ ¬ check_cfg p = true := by simp
  rw [h0]
  simp only [check_cfg, Bool.and_eq_true, decide_eq_true_eq]
  constructor
  · intro h
    by_contra hd
    push_neg at hd
    obtain ⟨hd1, hd2, hd3⟩ := hd
    apply h
    refine ⟨⟨?_, ?_⟩, ?_⟩ <;> split <;> simp_all
  · rintro (⟨hi, hb⟩ | ⟨hi, hb⟩ | ⟨hi, hb⟩) h <;> obtain ⟨⟨e1, e2⟩, e3⟩ := h
    · revert e1
      split <;> intro e1 <;> simp only [decide_eq_true_eq] at e1 <;>
        first | omega | linarith
    · revert e2
      split <;> intro e2 <;> simp only [decide_eq_true_eq] at e2 <;>
        first | omega | linarith
    · revert e3
      split <;> intro e3 <;> simp only [decide_eq_true_eq] at e3 <;>
        first | omega | linarith

/-- C3: the driver signals an error, before any solver work, exactly for
the parameter sets in which some active episode `i ≤ IRIFT` has
`TBEGi ≤ TENDi`; when every active episode satisfies `TBEGi > TENDi` the
ordering validation passes and the run proceeds past it (under the model
`run`, whose validation stage precedes every other computation). -/
theorem C3_ordering_validation (p : Params) (fuel outerFuel : ℕ) :
    run p fuel outerFuel = .error .badOrdering ↔
      (1 ≤ p.IRIFT ∧ p.TBEG1 ≤ p.TEND1) ∨ (2 ≤ p.IRIFT ∧ p.TBEG2 ≤ p.TEND2)
        ∨ (3 ≤ p.IRIFT ∧ p.TBEG3 ≤ p.TEND3) := by
  rw [← check_cfg_false_iff]
  unfold run
  by_cases h : check_cfg p
  · rw [if_pos h]
    simp only [h]
    constructor
    · intro hrun
      exfalso
      rcases hc : calculate_TL p.TC with _ | TL
      · rw [hc] at hrun
        exact RunError.noConfusion (Except.error.inj hrun)
      · rw [hc] at hrun
        rcases hs : sweepGo p (nondimensionalise_parameters p TL)
            (setup_constants p TL (nondimensionalise_parameters p TL)) fuel
            outerFuel p.BETMIN
            (initialSim (setup_constants p TL (nondimensionalise_parameters p TL)))
            with _ | st
        · simp only [hs] at hrun
          exact RunError.noConfusion (Except.error.inj hrun)
        · simp only [hs] at hrun
          exact Except.noConfusion hrun
    · intro hfalse
      exact Bool.noConfusion hfalse
  · rw [if_neg h]
    simp [Bool.eq_false_iff.mpr h]

/-- At the default crustal thickness `TC = 30000` the quadratic solver
selects the second root and yields a lithospheric thickness of about
117.5 km, and `calculate_TL` succeeds. -/
theorem calculate_TL_val_30000_bounds :
    117508 < calculate_TL_val 30000 ∧ calculate_TL_val 30000 < 117516 := by
  unfold calculate_TL_val
  norm_num [RHOM, RHOC, RHOW, TASTH, TEXPAN, TCO, DW]
  rw [show (Real.sqrt 2500000000 : ℝ) = 50000 by
    rw [show (2500000000 : ℝ) = 50000 ^ 2 by norm_num, Real.sqrt_sq (by norm_num)]]
  have hs0 : (425520000 : ℝ) < Real.sqrt 181075591597727241 := by
    rw [Real.lt_sqrt (by norm_num)]
    norm_num
  have hs1 : Real.sqrt 181075591597727241 < 425535000 := by
    rw [Real.sqrt_lt' (by norm_num)]
    norm_num
  rw [if_pos]
  · constructor <;> nlinarith [hs0, hs1]
  · left
    nlinarith [hs0, hs1]

/-- `calculate_TL` succeeds at the default crustal thickness. -/
theorem calculate_TL_30000 :
    calculate_TL 30000 = some (calculate_TL_val 30000) := by
  unfold calculate_TL
  rw [if_pos]
  have h := calculate_TL_val_30000_bounds.1
  linarith

/-- At `TC = 1000` the kept root is positive, so its negation - the final
`TL` - is negative. -/
theorem calculate_TL_val_1000_neg : calculate_TL_val 1000 < 0 := by
  unfold calculate_TL_val
  norm_num [RHOM, RHOC, RHOW, TASTH, TEXPAN, TCO, DW]
  rw [show (Real.sqrt 766028800052283921 / Real.sqrt 12500000000 : ℝ)
      = Real.sqrt (766028800052283921 / 12500000000) by
    rw [Real.sqrt_div (by norm_num : (766028800052283921 : ℝ) ≥ 0) 12500000000]]
  have hs0 : (0 : ℝ) ≤ Real.sqrt (766028800052283921 / 12500000000) :=
    Real.sqrt_nonneg _
  have hs1 : Real.sqrt (766028800052283921 / 12500000000) < 7829 := by
    rw [Real.sqrt_lt' (by norm_num : (0 : ℝ) < 7829)]
    norm_num
  rw [if_neg]
  · positivity
  · push_neg
    constructor <;> nlinarith [hs0, hs1]

/-- C8: the claim that the lithosphere-thickness computation reports
`TL ≤ TC` without aborting is violated by the code: at crustal thickness
`TC = 1000` the computed `TL` is below `TC` (first conjunct), and the
reporting path then reads the local `TLM`, which the guard `if TL >= TC`
left unassigned, raising `UnboundLocalError` - the run aborts
(`calculate_TL` returns `none`, second conjunct). -/
theorem C8_crash_on_TL_below_TC :
    calculate_TL_val 1000 < 1000 ∧ calculate_TL 1000 = none := by
  have h := calculate_TL_val_1000_neg
  refine ⟨by linarith, ?_⟩
  unfold calculate_TL
  rw [if_neg]
  intro hge
  linarith

/-- For the compaction parameters `RHOS = 4`, `PHI0 = 1/2`, `CONST = 2`
and row value `S = 1` the Newton function `f` is negative and bounded away
from zero everywhere (its maximum is about `-2.8`), so every Newton update
moves by more than the `1e-5` tolerance: the iteration can never satisfy
the convergence test. -/
theorem COMPAC_newton_step_big (x x' : ℝ)
    (h : COMPACstep 4 (1/2) 2 1 x = some x') : 1.0e-5 < |x' - x| := by
  have hu : 0 < Real.exp (-x / 2) := Real.exp_pos _
  have hexp : -x / 2 + 1 ≤ Real.exp (-x / 2) := Real.add_one_le_exp _
  unfold COMPACstep at h
  rw [show ((-x) / (2 : ℝ)) = -x / 2 by ring] at h
  simp only [] at h
  split_ifs at h with h2
  have hx' : x' = x - (x * (RHOA - 4) - 1 * RHOA
      + (1/2) * 2 * (4 - RHOW) * (1 - Real.exp (-x / 2))) /
      ((RHOA - 4) + (1/2) * (4 - RHOW) * Real.exp (-x / 2)) :=
    (Option.some.inj h).symm
  set u := Real.exp (-x / 2) with hu_def
  have hr : RHOA = 3.20352996 := by norm_num [RHOA, RHOM, TEXPAN, TASTH]
  have hX1 : x * (RHOA - 4) - 1 * RHOA + (1/2) * 2 * (4 - RHOW) * (1 - u)
      ≤ -1.82647004 - 1.37705992 * u := by
    rw [hr, RHOW]
    norm_num
    nlinarith [hexp]
  have hX2abs : |(RHOA - 4) + (1/2) * (4 - RHOW) * u| ≤ 0.79647004 + 1.485 * u := by
    rw [hr, RHOW]
    rw [abs_le]
    constructor <;> nlinarith [hu]
  have hX2ne : ((RHOA - 4) + (1/2) * (4 - RHOW) * u) ≠ 0 := h2
  have hX2pos : 0 < |(RHOA - 4) + (1/2) * (4 - RHOW) * u| := abs_pos.mpr hX2ne
  have key : 1.0e-5 * |(RHOA - 4) + (1/2) * (4 - RHOW) * u|
      < |x * (RHOA - 4) - 1 * RHOA + (1/2) * 2 * (4 - RHOW) * (1 - u)| := by
    have h1 : 1.82647004 + 1.37705992 * u
        ≤ |x * (RHOA - 4) - 1 * RHOA + (1/2) * 2 * (4 - RHOW) * (1 - u)| := by
      rw [abs_of_nonpos (by nlinarith [hX1, hu])]
      nlinarith [hX1]
    nlinarith [hX2abs, hu, hX2pos]
  rw [hx']
  rw [show x - (x * (RHOA - 4) - 1 * RHOA + (1/2) * 2 * (4 - RHOW) * (1 - u)) /
      ((RHOA - 4) + (1/2) * (4 - RHOW) * u) - x
    = -((x * (RHOA - 4) - 1 * RHOA + (1/2) * 2 * (4 - RHOW) * (1 - u)) /
      ((RHOA - 4) + (1/2) * (4 - RHOW) * u)) by ring]
  rw [abs_neg, abs_div]
  rw [lt_div_iff₀ hX2pos]
  exact key

/-- For that input the `COMPAC` loop therefore always exhausts its
iteration budget, whatever the starting point. -/
theorem COMPACloop_none (fuel : ℕ) :
    ∀ x : ℝ, COMPACloop 4 (1/2) 2 1 x fuel = none := by
  induction fuel with
  | zero =>
    intro x
    rw [COMPACloop]
    cases hstep : COMPACstep 4 (1/2) 2 1 x with
    | none => rfl
    | some x' =>
      dsimp only
      rw [if_pos (COMPAC_newton_step_big x x' hstep)]
  | succ n ih =>
    intro x
    rw [COMPACloop]
    cases hstep : COMPACstep 4 (1/2) 2 1 x with
    | none => rfl
    | some x' =>
      dsimp only
      rw [if_pos (COMPAC_newton_step_big x x' hstep)]
      exact ih x'

/-- C7: evaluation of `COMPAC` at the failing input
`RHOS = 4`, `PHI0 = 1/2`, `CONST = 2`, `S = 1`.  No Newton update for this
row can move by at most `1e-5`, so the loop counter `J` reaches 30 and the
source then reads `F[30]` from the 30-element list `F`, raising
`IndexError` (`none`), instead of accepting the last iterate as the claim
describes. -/
theorem C7_cap_reads_out_of_range : COMPACrow 4 (1/2) 2 1 = none :=
  COMPACloop_none 28 _

/-- A successful temperature update writes only the interior indices of
the target buffer: both boundary entries of both buffers are unchanged. -/
theorem stepTem_bounds (e : Episode) (s : TState) (tA tB : ℕ → ℝ)
    (h : stepTem e s = some (tA, tB)) :
    tA 0 = s.temA 0 ∧ tA 20 = s.temA 20 ∧ tB 0 = s.temB 0 ∧ tB 20 = s.temB 20 := by
  unfold stepTem at h
  cases hab : advBuffer e s with
  | none =>
    rw [hab] at h
    exact absurd h (by simp)
  | some abuf =>
    rw [hab] at h
    simp only [] at h
    split_ifs at h with hjgi
    · obtain ⟨h1, h2⟩ := Prod.mk.injEq .. ▸ Option.some.inj h
      subst h1 h2
      refine ⟨rfl, rfl, ?_, ?_⟩ <;> simp [hjgi]
    · obtain ⟨h1, h2⟩ := Prod.mk.injEq .. ▸ Option.some.inj h
      subst h1 h2
      refine ⟨?_, ?_, rfl, rfl⟩ <;> simp [hjgi]

/-- Bookkeeping facts about a successful first half of the loop body:
time advances by `DT`, `DT` is restored to `DTI`, flags are unchanged, at
most one row (time-stamped with the new time) is appended, and the buffer
boundaries are preserved. -/
theorem stepAdvance_state (e : Episode) (s s₁ : TState)
    (h : stepAdvance e s = some s₁) :
    s₁.T = s.T + s.DT ∧ s₁.DT = s.DTI ∧ s₁.DTI = s.DTI
    ∧ s₁.JFLAG = s.JFLAG ∧ s₁.IADV = s.IADV
    ∧ (s₁.data = s.data ∨
        ∃ row, row.time = some (s.T + s.DT) ∧ s₁.data = s.data ++ [row])
    ∧ s₁.temA 0 = s.temA 0 ∧ s₁.temA 20 = s.temA 20
    ∧ s₁.temB 0 = s.temB 0 ∧ s₁.temB 20 = s.temB 20 := by
  unfold stepAdvance at h
  cases htem : stepTem e s with
  | none =>
    rw [htem] at h
    exact absurd h (by simp)
  | some tt =>
    obtain ⟨tA, tB⟩ := tt
    have hb := stepTem_bounds e s tA tB htem
    rw [htem] at h
    simp only [] at h
    split_ifs at h with hrec <;>
      (obtain rfl := Option.some.inj h
       refine ⟨rfl, rfl, rfl, rfl, rfl, ?_, ?_, ?_, ?_, ?_⟩ <;>
         first
           | exact Or.inr ⟨_, rfl, rfl⟩
           | exact Or.inl rfl
           | simp [hb.1, hb.2.1, hb.2.2.1, hb.2.2.2])

/-- For a constant-strain-rate episode (`ITYPE = 1`) the advection stencil
never touches the uninitialised `TEM` row, so the first half of the loop
body always succeeds. -/
theorem stepAdvance_isSome_of_regime1 (e : Episode) (s : TState)
    (he : e.ITYPE = 1) : ∃ s₁, stepAdvance e s = some s₁ := by
  unfold stepAdvance stepTem advBuffer
  rw [if_neg (by simp [he])]
  simp only []
  split_ifs <;> exact ⟨_, rfl⟩

/-- Lower bounds survive along `monoFrom`. -/
theorem monoFrom_mono (t t' : ℝ) (L : List Row) (h : t ≤ t')
    (hm : monoFrom t' L) : monoFrom t L := by
  cases L with
  | nil => trivial
  | cons r rs =>
    obtain ⟨x, hx, htx, hrest⟩ := hm
    exact ⟨x, hx, le_trans h htx, hrest⟩

/-- A continuing pass through the loop body preserves the invariant,
strictly decreases the termination measure, appends at most one
time-stamped row, and leaves `DTI` and the buffer boundaries unchanged. -/
theorem TIMSTRstep_cont_spec (e : Episode) (hE : e.DTEND ≤ DTHALTfun e)
    (s s' : TState) (hinv : TInv e s)
    (h : TIMSTRstep e s = some (.cont s')) :
    TInv e s' ∧ TMeasure e s' < TMeasure e s
    ∧ (s'.data = s.data ∨
        ∃ row, row.time = some (s.T + s.DT) ∧ s'.data = s.data ++ [row])
    ∧ s'.T = s.T + s.DT ∧ s'.DTI = s.DTI
    ∧ s'.temA 0 = s.temA 0 ∧ s'.temA 20 = s.temA 20
    ∧ s'.temB 0 = s.temB 0 ∧ s'.temB 20 = s.temB 20 := by
  unfold TIMSTRstep at h
  cases hadv : stepAdvance e s with
  | none =>
    rw [hadv] at h
    exact absurd h (by simp)
  | some s₁ =>
    rw [hadv] at h
    simp only [Option.map_some'] at h
    have hbr := Option.some.inj h
    obtain ⟨hT, hDT, hDTI, hJF, hIA, hdata, hA0, hA20, hB0, hB20⟩ :=
      stepAdvance_state e s s₁ hadv
    obtain ⟨hdtipos, hdtnn, hdtle, hjle, hj0, hjn0⟩ := hinv
    have hdtine : s.DTI ≠ 0 := ne_of_gt hdtipos
    unfold stepBranch at hbr
    simp only [] at hbr
    split_ifs at hbr with hb1 hb2 hb3 hb4 hb5
    -- branch 1: the next step stays inside the stretching interval
    · obtain rfl := StepRes.cont.inj hbr
      rw [hT, hDT] at hb1
      have hτle : s.T + s.DT + s.DTI ≤ DTHALTfun e := le_trans hb1 hE
      have hnn : 0 ≤ (DTHALTfun e - (s.T + s.DT + s.DTI)) / s.DTI := by
        apply div_nonneg _ (le_of_lt hdtipos)
        linarith
      have hceil : Nat.ceil ((DTHALTfun e - (s.T + s.DT)) / s.DTI)
          = Nat.ceil ((DTHALTfun e - (s.T + s.DT + s.DTI)) / s.DTI) + 1 := by
        rw [show (DTHALTfun e - (s.T + s.DT)) / s.DTI
            = (DTHALTfun e - (s.T + s.DT + s.DTI)) / s.DTI + 1 by
          field_simp
          ring]
        rw [Nat.ceil_add_one hnn]
      refine ⟨⟨by rw [hDTI]; exact hdtipos, by rw [hDT]; exact le_of_lt hdtipos,
          by rw [hDT, hDTI], by rw [hJF]; exact hjle,
          fun _ => by rw [hT, hDT]; exact hb1,
          fun _ => by rw [hT, hDT]; exact hτle⟩, ?_, hdata, hT, hDTI,
          hA0, hA20, hB0, hB20⟩
      unfold TMeasure
      rw [hT, hDT, hDTI, hJF, hceil]
      omega
    -- branch 2: clip the step to the stretching end, switch `JFLAG` to 1
    · obtain rfl := (StepRes.cont.inj hbr).symm
      rw [hT, hDT] at hb1
      rw [hJF] at hb2
      have hτ : s.T + s.DT ≤ e.DTEND := hj0 hb2
      have hτH : s.T + s.DT ≤ DTHALTfun e := le_trans hτ hE
      simp only []
      refine ⟨⟨by simpa [hDTI] using hdtipos, ?_, ?_, by norm_num,
          fun hz => by norm_num at hz, fun _ => ?_⟩, ?_, ?_, ?_, ?_, ?_, ?_, ?_, ?_⟩
      · simp only [hT]
        linarith
      · simp only [hT, hDTI]
        push_neg at hb1
        linarith
      · simp only [hT]
        linarith [hE]
      · unfold TMeasure
        simp only [hT, hDTI, hJF, hb2]
        have hmono : Nat.ceil ((DTHALTfun e - (s.T + s.DT + (e.DTEND - (s.T + s.DT)))) / s.DTI)
            ≤ Nat.ceil ((DTHALTfun e - (s.T + s.DT)) / s.DTI) := by
          apply Nat.ceil_mono
          apply div_le_div_of_nonneg_right _ (le_of_lt hdtipos)
          linarith
        omega
      · exact hdata
      · exact hT
      · exact hDTI
      · exact hA0
      · exact hA20
      · exact hB0
      · exact hB20
    -- branch 3: purely conductive step before the halt time
    · obtain rfl := (StepRes.cont.inj hbr).symm
      obtain ⟨hb3a, hb3b⟩ := hb3
      rw [hT, hDT] at hb3a
      rw [hJF] at hb3b
      have hnn : 0 ≤ (DTHALTfun e - (s.T + s.DT + s.DTI)) / s.DTI := by
        apply div_nonneg _ (le_of_lt hdtipos)
        linarith
      have hceil : Nat.ceil ((DTHALTfun e - (s.T + s.DT)) / s.DTI)
          = Nat.ceil ((DTHALTfun e - (s.T + s.DT + s.DTI)) / s.DTI) + 1 := by
        rw [show (DTHALTfun e - (s.T + s.DT)) / s.DTI
            = (DTHALTfun e - (s.T + s.DT + s.DTI)) / s.DTI + 1 by
          field_simp
          ring]
        rw [Nat.ceil_add_one hnn]
      simp only []
      refine ⟨⟨by simpa [hDTI] using hdtipos, ?_, ?_, ?_,
          fun hz => ?_, fun _ => ?_⟩, ?_, ?_, ?_, ?_, ?_, ?_, ?_, ?_⟩
      · simp only [hDT, hDTI]
        exact le_of_lt hdtipos
      · simp [hDT, hDTI]
      · simp only [hJF]
        exact hjle
      · simp only [hJF] at hz
        rw [hb3b] at hz
        norm_num at hz
      · simp only [hT, hDT, hDTI]
        linarith
      · unfold TMeasure
        simp only [hT, hDT, hDTI, hJF, hceil]
        omega
      · exact hdata
      · exact hT
      · exact hDTI
      · exact hA0
      · exact hA20
      · exact hB0
      · exact hB20
    -- branch 4 with a nonzero clipped step: clip to the halt time
    · obtain rfl := (StepRes.cont.inj hbr).symm
      obtain ⟨hb4a, hb4b⟩ := hb4
      rw [hT, hDT] at hb4a
      rw [hJF] at hb4b
      have hτH : s.T + s.DT ≤ DTHALTfun e := by
        rcases Nat.eq_zero_or_pos s.JFLAG with hz | hp
        · exact le_trans (hj0 hz) hE
        · exact hjn0 (Nat.pos_iff_ne_zero.mp hp)
      simp only []
      refine ⟨⟨by simpa [hDTI] using hdtipos, ?_, ?_, by norm_num,
          fun hz => by norm_num at hz, fun _ => ?_⟩, ?_, ?_, ?_, ?_, ?_, ?_, ?_, ?_⟩
      · simp only [hT]
        linarith
      · simp only [hT, hDTI]
        linarith
      · simp only [hT]
        linarith
      · unfold TMeasure
        simp only [hT, hDTI, hJF]
        have hz : Nat.ceil ((DTHALTfun e - (s.T + s.DT + (DTHALTfun e - (s.T + s.DT)))) / s.DTI)
            = 0 := by
          rw [show s.T + s.DT + (DTHALTfun e - (s.T + s.DT)) = DTHALTfun e by ring]
          rw [Nat.ceil_eq_zero.mpr]
          simp
        rw [hz]
        omega
      · exact hdata
      · exact hT
      · exact hDTI
      · exact hA0
      · exact hA20
      · exact hB0
      · exact hB20

/-- A terminating pass through the loop body appends at most one
time-stamped row and leaves the buffer boundaries unchanged. -/
theorem TIMSTRstep_done_spec (e : Episode) (s s' : TState)
    (h : TIMSTRstep e s = some (.done s')) :
    (s'.data = s.data ∨
        ∃ row, row.time = some (s.T + s.DT) ∧ s'.data = s.data ++ [row])
    ∧ s'.T = s.T + s.DT
    ∧ s'.temA 0 = s.temA 0 ∧ s'.temA 20 = s.temA 20
    ∧ s'.temB 0 = s.temB 0 ∧ s'.temB 20 = s.temB 20 := by
  unfold TIMSTRstep at h
  cases hadv : stepAdvance e s with
  | none =>
    rw [hadv] at h
    exact absurd h (by simp)
  | some s₁ =>
    rw [hadv] at h
    simp only [Option.map_some'] at h
    have hbr := Option.some.inj h
    obtain ⟨hT, hDT, hDTI, hJF, hIA, hdata, hA0, hA20, hB0, hB20⟩ :=
      stepAdvance_state e s s₁ hadv
    unfold stepBranch at hbr
    simp only [] at hbr
    split_ifs at hbr with hb1 hb2 hb3 hb4 hb5
    · obtain rfl := (StepRes.done.inj hbr).symm
      exact ⟨hdata, hT, hA0, hA20, hB0, hB20⟩
    · obtain rfl := (StepRes.done.inj hbr).symm
      exact ⟨hdata, hT, hA0, hA20, hB0, hB20⟩

/-- The master lemma about a `TIMSTR` loop run for a regime-1 episode
whose stretching phase ends no later than its halt time: given enough fuel
(measured by `TMeasure`), the loop terminates, appends only rows whose
time stamps are present and non-decreasing from the entry time, and
preserves the temperature-buffer boundaries. -/
theorem TIMSTRrun_total (e : Episode) (he : e.ITYPE = 1)
    (hE : e.DTEND ≤ DTHALTfun e) :
    ∀ (n : ℕ) (s : TState), TInv e s → TMeasure e s < n →
      ∃ s' L, TIMSTRrun e n s = some s' ∧ s'.data = s.data ++ L
        ∧ monoFrom s.T L
        ∧ s'.temA 0 = s.temA 0 ∧ s'.temA 20 = s.temA 20
        ∧ s'.temB 0 = s.temB 0 ∧ s'.temB 20 = s.temB 20 := by
  intro n
  induction n with
  | zero =>
    intro s _ hμ
    omega
  | succ k ih =>
    intro s hinv hμ
    obtain ⟨s₁, hadv⟩ := stepAdvance_isSome_of_regime1 e s he
    have hstep : TIMSTRstep e s = some (stepBranch e s₁) := by
      unfold TIMSTRstep
      rw [hadv]
      rfl
    cases hbr : stepBranch e s₁ with
    | done s₂ =>
      have hd := TIMSTRstep_done_spec e s s₂ (by rw [hstep, hbr])
      obtain ⟨hdata, hT2, a0, a20, b0, b20⟩ := hd
      have hrun : TIMSTRrun e (k + 1) s = some s₂ := by
        rw [TIMSTRrun, hstep, hbr]
      rcases hdata with hsame | ⟨row, hrt, happ⟩
      · exact ⟨s₂, [], hrun, by simpa using hsame, trivial, a0, a20, b0, b20⟩
      · exact ⟨s₂, [row], hrun, happ,
          ⟨s.T + s.DT, hrt, by linarith [hinv.2.1], trivial⟩, a0, a20, b0, b20⟩
    | cont s₂ =>
      have hc := TIMSTRstep_cont_spec e hE s s₂ hinv (by rw [hstep, hbr])
      obtain ⟨hinv₂, hμ₂, hdata, hT2, hDTI2, a0, a20, b0, b20⟩ := hc
      obtain ⟨s', L', hrun', hdata', hmono', a0', a20', b0', b20'⟩ :=
        ih s₂ hinv₂ (by omega)
      have hrun : TIMSTRrun e (k + 1) s = TIMSTRrun e k s₂ := by
        rw [TIMSTRrun, hstep, hbr]
      have hTle : s.T ≤ s₂.T := by
        rw [hT2]
        linarith [hinv.2.1]
      rcases hdata with hsame | ⟨row, hrt, happ⟩
      · refine ⟨s', L', by rw [hrun]; exact hrun', by rw [hdata', hsame], ?_,
          by rw [a0', a0], by rw [a20', a20], by rw [b0', b0], by rw [b20', b20]⟩
        exact monoFrom_mono _ _ _ hTle hmono'
      · refine ⟨s', row :: L', by rw [hrun]; exact hrun', ?_, ?_,
          by rw [a0', a0], by rw [a20', a20], by rw [b0', b0], by rw [b20', b20]⟩
        · rw [hdata', happ]
          simp
        · refine ⟨s.T + s.DT, hrt, by linarith [hinv.2.1], ?_⟩
          rw [← hT2]
          exact hmono'

/-- Bounds on the diffusion timescale for the default parameter set. -/
theorem TIMSC_default_bounds :
    545.21 < dDefault.TIMSC ∧ dDefault.TIMSC < 545.29 := by
  obtain ⟨h1, h2⟩ := calculate_TL_val_30000_bounds
  have hTL : TLdefault = calculate_TL_val 30000 := by
    unfold TLdefault
    norm_num [defaultP]
  have he : dDefault.TIMSC = TLdefault ^ 2 / 25326000 := by
    simp [dDefault, nondimensionalise_parameters, DIFFUS]
    norm_num
  rw [he, hTL]
  constructor <;> nlinarith [h1, h2]

/-- The dimensionless schedule entries actually used by the default sweep. -/
theorem dDefault_fields :
    dDefault.DTEND1 = 60 / dDefault.TIMSC
    ∧ dDefault.DTSTOP = 160 / dDefault.TIMSC
    ∧ dDefault.DTST = 1 / dDefault.TIMSC := by
  refine ⟨?_, ?_, ?_⟩ <;>
    simp [dDefault, nondimensionalise_parameters, nondimTime, defaultP] <;>
    norm_num

/-- Core of the default sweep-body analysis, from distilled numeric bounds
on the dimensionless schedule. -/
theorem sweepBody_default_core (β : ℝ) (st : SimState) (hA : st.AMPL = 1)
    (hE1 : 0.11 < dDefault.DTEND1) (hE2 : dDefault.DTEND1 < 0.1101)
    (hS1 : 0.29 < dDefault.DTSTOP) (hS2 : dDefault.DTSTOP < 0.294)
    (hG1 : 0 < Real.log β / dDefault.DTEND1)
    (hG2 : Real.log β / dDefault.DTEND1 < 6.31)
    (hDTI : timstrDTI (Real.log β / dDefault.DTEND1) 1 dDefault.DTST
      = 0.00125) :
    ∃ st' r L, sweepBody defaultP dDefault cDefault 800 β st = some st'
      ∧ st'.data = st.data ++ (r :: L) ∧ r.time = some 0
      ∧ monoFrom 0 (r :: L) ∧ st'.AMPL = 1 := by
  set G := Real.log β / dDefault.DTEND1 with hGdef
  set e := episode1 defaultP dDefault cDefault G β st with hedef
  have heIT : e.ITYPE = 1 := rfl
  have heKRR : e.KRR = 0 := rfl
  have heH : DTHALTfun e = dDefault.DTSTOP := by
    unfold DTHALTfun
    norm_num [hedef, episode1, defaultP]
  have hDTIe : timstrDTI e.G e.AMPL e.DTST = 0.00125 := by
    have : e.AMPL = st.AMPL := rfl
    rw [show e.G = G from rfl, this, hA, show e.DTST = dDefault.DTST from rfl]
    exact hDTI
  have hiT : (TIMSTRinit e st).T = 0 := by
    simp [TIMSTRinit, heKRR]
  have hiDTI : (TIMSTRinit e st).DTI = 0.00125 := by
    simp only [TIMSTRinit]
    exact hDTIe
  have hiDT : (TIMSTRinit e st).DT = 0.00125 := by
    simp only [TIMSTRinit]
    exact hDTIe
  have hiJF : (TIMSTRinit e st).JFLAG = 0 := rfl
  have hiData : (TIMSTRinit e st).data
      = st.data ++ [⟨some 0, some 0, some 1, SRATE0fun e 0⟩] := by
    simp [TIMSTRinit, heKRR, IHFLW]
  have hInvInit : TInv e (TIMSTRinit e st) := by
    refine ⟨?_, ?_, ?_, ?_, ?_, ?_⟩
    · rw [hiDTI]
      norm_num
    · rw [hiDT]
      norm_num
    · rw [hiDT, hiDTI]
    · rw [hiJF]
      norm_num
    · intro _
      rw [hiT, hiDT, show e.DTEND = dDefault.DTEND1 from rfl]
      linarith
    · intro hz
      exact absurd hiJF hz
  have hμ : TMeasure e (TIMSTRinit e st) < 800 := by
    unfold TMeasure
    rw [hiT, hiDT, hiDTI, hiJF, heH]
    have hceil : Nat.ceil ((dDefault.DTSTOP - (0 + 0.00125)) / 0.00125) ≤ 235 := by
      rw [Nat.ceil_le]
      rw [div_le_iff (by norm_num : (0:ℝ) < 0.00125)]
      push_cast
      linarith
    omega
  have hEE : e.DTEND ≤ DTHALTfun e := by
    rw [show e.DTEND = dDefault.DTEND1 from rfl, heH]
    linarith
  obtain ⟨s', L, hrun, hdata, hmono, _, _, _, _⟩ :=
    TIMSTRrun_total e heIT hEE 800 (TIMSTRinit e st) hInvInit hμ
  have hTIM : TIMSTR e 800 st
      = some { st with data := s'.data, lastT := s'.lastT,
                       temA := s'.temA, temB := s'.temB,
                       TRINIT := s'.TRINIT, SINIT := s'.SINIT } := by
    unfold TIMSTR
    rw [hrun]
  have hbody : sweepBody defaultP dDefault cDefault 800 β st
      = some { st with data := s'.data, lastT := s'.lastT,
                       temA := s'.temA, temB := s'.temB,
                       TRINIT := s'.TRINIT, SINIT := s'.SINIT } := by
    unfold sweepBody
    rw [show set_dless_constants defaultP dDefault 800 β st = some (st, G) by
      unfold set_dless_constants
      rw [if_pos (show defaultP.ITYPE1 = 1 from rfl)]]
    simp only []
    rw [← hedef, hTIM]
    dsimp only
    rw [if_neg (show ¬ 2 ≤ defaultP.IRIFT by norm_num [defaultP])]
  refine ⟨_, ⟨some 0, some 0, some 1, SRATE0fun e 0⟩, L, hbody, ?_, rfl, ?_, hA⟩
  · have : s'.data = st.data
        ++ ([⟨some 0, some 0, some 1, SRATE0fun e 0⟩] ++ L) := by
      rw [hdata, hiData, List.append_assoc]
    simpa using this
  · refine ⟨0, rfl, le_refl 0, ?_⟩
    rw [← hiT]
    exact hmono

/-- For the default parameter set and any swept `1 < β ≤ 2`, the sweep
body terminates within 800 loop iterations and appends exactly one beta
group: a first row stamped with dimensionless time 0 followed by rows with
present, non-decreasing time stamps.  The regime-4 globals are untouched. -/
theorem sweepBody_default (β : ℝ) (hβ1 : 1 < β) (hβ2 : β ≤ 2) (st : SimState)
    (hA : st.AMPL = 1) :
    ∃ st' r L, sweepBody defaultP dDefault cDefault 800 β st = some st'
      ∧ st'.data = st.data ++ (r :: L) ∧ r.time = some 0
      ∧ monoFrom 0 (r :: L) ∧ st'.AMPL = 1 := by
  obtain ⟨hTl, hTu⟩ := TIMSC_default_bounds
  obtain ⟨hd1, hd2, hd3⟩ := dDefault_fields
  have hTpos : 0 < dDefault.TIMSC := by linarith
  have hE1 : 0.11 < dDefault.DTEND1 := by
    rw [hd1, lt_div_iff hTpos]
    linarith
  have hE2 : dDefault.DTEND1 < 0.1101 := by
    rw [hd1, div_lt_iff hTpos]
    linarith
  have hS1 : 0.29 < dDefault.DTSTOP := by
    rw [hd2, lt_div_iff hTpos]
    linarith
  have hS2 : dDefault.DTSTOP < 0.294 := by
    rw [hd2, div_lt_iff hTpos]
    linarith
  have hst1 : 0.00183 < dDefault.DTST := by
    rw [hd3, lt_div_iff hTpos]
    linarith
  have hst2 : dDefault.DTST < 0.00184 := by
    rw [hd3, div_lt_iff hTpos]
    linarith
  have hlog1 : 0 < Real.log β := Real.log_pos hβ1
  have hlog2 : Real.log β < 0.6932 := by
    have h2 : Real.log β ≤ Real.log 2 := Real.log_le_log (by linarith) hβ2
    have := Real.log_two_lt_d9
    calc Real.log β ≤ Real.log 2 := h2
      _ < 0.6931471808 := Real.log_two_lt_d9
      _ < 0.6932 := by norm_num
  have hG1 : 0 < Real.log β / dDefault.DTEND1 := div_pos hlog1 (by linarith)
  have hG2 : Real.log β / dDefault.DTEND1 < 6.31 := by
    rw [div_lt_iff (by linarith)]
    nlinarith
  have hDTI : timstrDTI (Real.log β / dDefault.DTEND1) 1 dDefault.DTST
      = 0.00125 := by
    unfold timstrDTI DZ
    have hA_eq : ((0.05 : ℝ)) ^ 2 / 2 = 0.00125 := by norm_num
    have hAB : ((0.05 : ℝ)) ^ 2 / 2
        ≤ 0.05 / (1 + Real.log β / dDefault.DTEND1) := by
      rw [le_div_iff (by linarith)]
      nlinarith
    have houter : min (((0.05 : ℝ)) ^ 2 / 2)
        (0.05 / (1 + Real.log β / dDefault.DTEND1)) ≤ dDefault.DTST := by
      apply le_trans (min_le_left _ _)
      nlinarith
    rw [min_eq_left houter, min_eq_left hAB, hA_eq]
  exact sweepBody_default_core β st hA hE1 hE2 hS1 hS2 hG1 hG2 hDTI

/-- The validation passes on the default parameters. -/
theorem check_cfg_default : check_cfg defaultP = true := by
  simp [check_cfg, defaultP]
  norm_num

/-- C4: running the sweep with the default parameters
(`BETMIN = 1.5`, `BETMAX = 2.0`, `BETINC = 0.5`) produces an output table
made of exactly two beta groups - the bodies run at `β = 3/2` and `β = 2` -
each a contiguous block of rows with present, monotonically non-decreasing
dimensionless time stamps, separated by exactly one sentinel row; and in
general the sweep loop continues, after the increment, exactly while the
incremented beta is `≤ BETMAX`.  (The table here is the one the sweep
hands to the finalisation pass, whose time stamps are still
dimensionless.) -/
theorem C4_two_beta_groups :
    (∃ st1 st2 r1 L1 r2 L2,
      sweepBody defaultP dDefault cDefault 800 (3/2) (initialSim cDefault)
          = some st1
      ∧ sweepBody defaultP dDefault cDefault 800 2 (appendSentinel st1)
          = some st2
      ∧ run defaultP 800 5 = .ok st2
      ∧ st1.data = r1 :: L1
      ∧ st2.data = (r1 :: L1) ++ (sentinelRow :: r2 :: L2)
      ∧ monoFrom 0 (r1 :: L1) ∧ monoFrom 0 (r2 :: L2))
    ∧ (∀ (n : ℕ) (β : ℝ) (st : SimState),
      (β + defaultP.BETINC ≤ defaultP.BETMAX →
        sweepGo defaultP dDefault cDefault 800 (n + 1) β st
          = (sweepBody defaultP dDefault cDefault 800 β st).bind
              (fun st' => sweepGo defaultP dDefault cDefault 800 n
                (β + defaultP.BETINC) (appendSentinel st')))
      ∧ (defaultP.BETMAX < β + defaultP.BETINC →
        sweepGo defaultP dDefault cDefault 800 (n + 1) β st
          = sweepBody defaultP dDefault cDefault 800 β st)) := by
  constructor
  · obtain ⟨st1, r1, L1, h1, hd1, hr1, hm1, hA1⟩ :=
      sweepBody_default (3/2) (by norm_num) (by norm_num)
        (initialSim cDefault) rfl
    obtain ⟨st2, r2, L2, h2, hd2, hr2, hm2, hA2⟩ :=
      sweepBody_default 2 (by norm_num) (by norm_num)
        (appendSentinel st1) hA1
    have hsplit : st2.data = (r1 :: L1) ++ (sentinelRow :: r2 :: L2) := by
      rw [hd2]
      show (appendSentinel st1).data ++ (r2 :: L2) = _
      rw [show (appendSentinel st1).data = st1.data ++ [sentinelRow] from rfl]
      rw [hd1]
      simp [initialSim]
    have hgo : sweepGo defaultP dDefault cDefault 800 5 defaultP.BETMIN
        (initialSim cDefault) = some st2 := by
      rw [show defaultP.BETMIN = (3/2 : ℝ) from by norm_num [defaultP]]
      rw [sweepGo, h1]
      simp only []
      rw [if_pos (show (3/2 : ℝ) + defaultP.BETINC ≤ defaultP.BETMAX by
        norm_num [defaultP])]
      rw [show (3/2 : ℝ) + defaultP.BETINC = 2 by norm_num [defaultP]]
      rw [sweepGo, h2]
      simp only []
      rw [if_neg (show ¬ ((2 : ℝ) + defaultP.BETINC ≤ defaultP.BETMAX) by
        norm_num [defaultP])]
    have hrun : run defaultP 800 5 = .ok st2 := by
      unfold run
      rw [if_pos check_cfg_default]
      rw [show defaultP.TC = (30000 : ℝ) from by norm_num [defaultP]]
      rw [calculate_TL_30000]
      dsimp only
      rw [show nondimensionalise_parameters defaultP (calculate_TL_val 30000)
          = dDefault from rfl]
      rw [show setup_constants defaultP (calculate_TL_val 30000) dDefault
          = cDefault from rfl]
      rw [hgo]
    have hd1simp : st1.data = r1 :: L1 := by
      rw [hd1]
      simp [initialSim]
    exact ⟨st1, st2, r1, L1, r2, L2, h1, h2, hrun, hd1simp, hsplit, hm1, hm2⟩
  · intro n β st
    constructor
    · intro hle
      rw [sweepGo]
      cases hb : sweepBody defaultP dDefault cDefault 800 β st with
      | none => rfl
      | some st' =>
        simp only [Option.bind_some]
        rw [if_pos hle]
        rfl
    · intro hgt
      rw [sweepGo]
      cases hb : sweepBody defaultP dDefault cDefault 800 β st with
      | none => rfl
      | some st' =>
        simp only []
        rw [if_neg (not_le.mpr hgt)]

/-- Witness for C4: the default run completes and an instance of the
general loop rule at a beta exceeding the sweep bound. -/
theorem C4_two_beta_groups_witness :
    (∃ st2, run defaultP 800 5 = .ok st2)
    ∧ ((2 : ℝ) < 5 + defaultP.BETINC →
      sweepGo defaultP dDefault cDefault 800 1 5 (initialSim cDefault)
        = sweepBody defaultP dDefault cDefault 800 5 (initialSim cDefault)) := by
  obtain ⟨⟨st1, st2, r1, L1, r2, L2, _, _, hrun, _⟩, hgen⟩ := C4_two_beta_groups
  refine ⟨⟨st2, hrun⟩, ?_⟩
  intro h5
  have := (hgen 0 5 (initialSim cDefault)).2
  apply this
  norm_num [defaultP]

/-- The branch ladder never modifies the output table. -/
theorem TIMSTRstep_data (e : Episode) (s : TState) (r : StepRes)
    (h : TIMSTRstep e s = some r) :
    ∃ rest, r.state.data = s.data ++ rest := by
  unfold TIMSTRstep at h
  cases hadv : stepAdvance e s with
  | none =>
    rw [hadv] at h
    exact absurd h (by simp)
  | some s₁ =>
    rw [hadv] at h
    simp only [Option.map_some'] at h
    obtain ⟨_, _, _, _, _, hdata, _⟩ := stepAdvance_state e s s₁ hadv
    have hr : r = stepBranch e s₁ := (Option.some.inj h).symm
    have hbdata : (stepBranch e s₁).state.data = s₁.data := by
      unfold stepBranch
      simp only []
      split_ifs <;> rfl
    rw [hr, hbdata]
    rcases hdata with h' | ⟨row, _, h'⟩
    · exact ⟨[], by simp [h']⟩
    · exact ⟨[row], h'⟩

/-- A successful `TIMSTR` loop run only appends to the output table. -/
theorem TIMSTRrun_data (e : Episode) :
    ∀ (n : ℕ) (s s' : TState), TIMSTRrun e n s = some s' →
      ∃ rest, s'.data = s.data ++ rest := by
  intro n
  induction n with
  | zero =>
    intro s s' h
    exact absurd h (by simp [TIMSTRrun])
  | succ k ih =>
    intro s s' h
    rw [TIMSTRrun] at h
    cases hstep : TIMSTRstep e s with
    | none =>
      rw [hstep] at h
      exact absurd h (by simp)
    | some r =>
      rw [hstep] at h
      obtain ⟨rest, hr⟩ := TIMSTRstep_data e s r hstep
      cases r with
      | done s₂ =>
        simp only [] at h
        obtain rfl := Option.some.inj h
        simp only [StepRes.state] at hr
        exact ⟨rest, hr⟩
      | cont s₂ =>
        simp only [] at h
        simp only [StepRes.state] at hr
        obtain ⟨rest', hr'⟩ := ih s₂ s' h
        exact ⟨rest ++ rest', by rw [hr', hr, List.append_assoc]⟩

/-- A successful `TIMSTR` call only appends to the output table. -/
theorem TIMSTR_data (e : Episode) (fuel : ℕ) (st st' : SimState)
    (h : TIMSTR e fuel st = some st') :
    ∃ rest, st'.data = st.data ++ rest := by
  unfold TIMSTR at h
  cases hrun : TIMSTRrun e fuel (TIMSTRinit e st) with
  | none =>
    rw [hrun] at h
    exact absurd h (by simp)
  | some s₂ =>
    rw [hrun] at h
    obtain ⟨rest, hr⟩ := TIMSTRrun_data e fuel (TIMSTRinit e st) s₂ hrun
    obtain rfl := (Option.some.inj h).symm
    have hinit : ∃ r0, (TIMSTRinit e st).data = st.data ++ r0 := by
      by_cases hk : e.KRR = 0
      · exact ⟨[⟨some 0, some 0, some 1, SRATE0fun e 0⟩],
          by simp [TIMSTRinit, hk, IHFLW]⟩
      · exact ⟨[], by simp [TIMSTRinit, hk]⟩
    obtain ⟨r0, hr0⟩ := hinit
    exact ⟨r0 ++ rest, by
      show s₂.data = st.data ++ (r0 ++ rest)
      rw [hr, hr0, List.append_assoc]⟩

/-- `set_dless_constants` never modifies the output table. -/
theorem set_dless_data (p : Params) (d : Dless) (fuel : ℕ) (β : ℝ)
    (st st0 : SimState) (GP1 : ℝ)
    (h : set_dless_constants p d fuel β st = some (st0, GP1)) :
    st0.data = st.data := by
  unfold set_dless_constants at h
  simp only [] at h
  split_ifs at h
  · obtain rfl := (Prod.mk.injEq .. ▸ Option.some.inj h).1.symm
    rfl
  · obtain rfl := (Prod.mk.injEq .. ▸ Option.some.inj h).1.symm
    rfl
  · obtain rfl := (Prod.mk.injEq .. ▸ Option.some.inj h).1.symm
    rfl
  · rcases hrg : rgm4go (Real.log β / d.DTEND1) d.DTEND1 p.CYCLES
        (p.FRAC * Real.log β / d.DTEND1) (Real.log β / d.DTEND1) fuel
        with _ | ⟨G1, W1⟩ <;> rw [hrg] at h
    · exact absurd h (by simp)
    · simp only [] at h
      obtain rfl := (Prod.mk.injEq .. ▸ Option.some.inj h).1.symm
      rfl
  · obtain rfl := (Prod.mk.injEq .. ▸ Option.some.inj h).1.symm
    rfl

/-- The sweep body only appends to the output table. -/
theorem sweepBody_data (p : Params) (d : Dless) (c : Consts) (fuel : ℕ)
    (β : ℝ) (st st' : SimState)
    (h : sweepBody p d c fuel β st = some st') :
    ∃ rest, st'.data = st.data ++ rest := by
  unfold sweepBody at h
  cases hsd : set_dless_constants p d fuel β st with
  | none =>
    rw [hsd] at h
    exact absurd h (by simp)
  | some pr =>
    obtain ⟨st0, GP1⟩ := pr
    have hst0 : st0.data = st.data := set_dless_data p d fuel β st st0 GP1 hsd
    rw [hsd] at h
    simp only [] at h
    cases h1 : TIMSTR (episode1 p d c GP1 β st0) fuel st0 with
    | none =>
      rw [h1] at h
      exact absurd h (by simp)
    | some st1 =>
      rw [h1] at h
      simp only [] at h
      obtain ⟨r1, hr1⟩ := TIMSTR_data _ _ _ _ h1
      by_cases h2r : 2 ≤ p.IRIFT
      · rw [if_pos h2r] at h
        cases h2 : TIMSTR (episode2 p d c β st1) fuel st1 with
        | none =>
          rw [h2] at h
          exact absurd h (by simp)
        | some st2 =>
          rw [h2] at h
          simp only [] at h
          obtain ⟨r2, hr2⟩ := TIMSTR_data _ _ _ _ h2
          by_cases h3r : 3 ≤ p.IRIFT
          · rw [if_pos h3r] at h
            by_cases h3e : p.IRIFT = 3
            · rw [if_pos h3e] at h
              obtain ⟨r3, hr3⟩ := TIMSTR_data _ _ _ _ h
              exact ⟨r1 ++ r2 ++ r3, by
                rw [hr3, hr2, hr1, hst0]
                simp [List.append_assoc]⟩
            · rw [if_neg h3e] at h
              exact absurd h (by simp)
          · rw [if_neg h3r] at h
            obtain rfl := (Option.some.inj h).symm
            exact ⟨r1 ++ r2, by
              rw [hr2, hr1, hst0]
              simp [List.append_assoc]⟩
      · rw [if_neg h2r] at h
        obtain rfl := (Option.some.inj h).symm
        exact ⟨r1, by rw [hr1, hst0]⟩

/-- The whole sweep loop only appends to the output table. -/
theorem sweepGo_data (p : Params) (d : Dless) (c : Consts) (fuel : ℕ) :
    ∀ (n : ℕ) (β : ℝ) (st st' : SimState),
      sweepGo p d c fuel n β st = some st' →
      ∃ rest, st'.data = st.data ++ rest := by
  intro n
  induction n with
  | zero =>
    intro β st st' h
    exact absurd h (by simp [sweepGo])
  | succ k ih =>
    intro β st st' h
    rw [sweepGo] at h
    cases hb : sweepBody p d c fuel β st with
    | none =>
      rw [hb] at h
      exact absurd h (by simp)
    | some stb =>
      rw [hb] at h
      simp only [] at h
      obtain ⟨r1, hr1⟩ := sweepBody_data p d c fuel β st stb hb
      split_ifs at h with hcond
      · obtain ⟨r2, hr2⟩ := ih (β + p.BETINC) (appendSentinel stb) st' h
        exact ⟨r1 ++ ([sentinelRow] ++ r2), by
          rw [hr2, show (appendSentinel stb).data = stb.data ++ [sentinelRow]
            from rfl, hr1]
          simp [List.append_assoc]⟩
      · obtain rfl := (Option.some.inj h).symm
        exact ⟨r1, hr1⟩

/-- C10: the beta sweep body always executes at least once.  When the
incremented beta already exceeds `BETMAX` (in particular whenever
`BETMIN > BETMAX` and the increment is nonnegative) the sweep is exactly
one body execution at the starting beta; and in every successful sweep the
output table extends the table produced by the first body execution - the
full simulation output for `beta1 = BETMIN` - because the bound test is
performed only after the increment. -/
theorem C10_body_always_runs (p : Params) (d : Dless) (c : Consts)
    (fuel n : ℕ) (β : ℝ) (st : SimState) :
    (p.BETMAX < β + p.BETINC →
      sweepGo p d c fuel (n + 1) β st = sweepBody p d c fuel β st)
    ∧ (∀ st', sweepGo p d c fuel (n + 1) β st = some st' →
      ∃ stb rest, sweepBody p d c fuel β st = some stb
        ∧ st'.data = stb.data ++ rest) := by
  constructor
  · intro hgt
    rw [sweepGo]
    cases hb : sweepBody p d c fuel β st with
    | none => rfl
    | some stb =>
      simp only []
      rw [if_neg (not_le.mpr hgt)]
  · intro st' h
    rw [sweepGo] at h
    cases hb : sweepBody p d c fuel β st with
    | none =>
      rw [hb] at h
      exact absurd h (by simp)
    | some stb =>
      rw [hb] at h
      simp only [] at h
      split_ifs at h with hcond
      · obtain ⟨r2, hr2⟩ := sweepGo_data p d c fuel n (β + p.BETINC)
          (appendSentinel stb) st' h
        exact ⟨stb, [sentinelRow] ++ r2, rfl, by
          rw [hr2, show (appendSentinel stb).data = stb.data ++ [sentinelRow]
            from rfl]
          simp [List.append_assoc]⟩
      · have heq : stb = st' := Option.some.inj h
        subst heq
        exact ⟨stb, [], rfl, by simp⟩

/-- Witness for C10: the first-conjunct rule applied beyond the sweep
bound, and a concrete sweep whose output extends its first body's output. -/
theorem C10_body_always_runs_witness :
    (sweepGo defaultP dDefault cDefault 0 1 5 (initialSim cDefault)
      = sweepBody defaultP dDefault cDefault 0 5 (initialSim cDefault))
    ∧ ∃ st' stb rest,
      sweepGo defaultP dDefault cDefault 800 1 2 (initialSim cDefault)
          = some st'
      ∧ sweepBody defaultP dDefault cDefault 800 2 (initialSim cDefault)
          = some stb
      ∧ st'.data = stb.data ++ rest := by
  constructor
  · exact (C10_body_always_runs defaultP dDefault cDefault 0 0 5
      (initialSim cDefault)).1 (by norm_num [defaultP])
  · obtain ⟨st1, r1, L1, h1, _, _, _, _⟩ :=
      sweepBody_default 2 (by norm_num) (by norm_num) (initialSim cDefault) rfl
    have hgo : sweepGo defaultP dDefault cDefault 800 1 2 (initialSim cDefault)
        = some st1 := by
      rw [sweepGo, h1]
      simp only []
      rw [if_neg (show ¬ ((2 : ℝ) + defaultP.BETINC ≤ defaultP.BETMAX) by
        norm_num [defaultP])]
    obtain ⟨stb, rest, hb, hdata⟩ :=
      (C10_body_always_runs defaultP dDefault cDefault 800 0 2
        (initialSim cDefault)).2 st1 hgo
    exact ⟨st1, stb, rest, hgo, hb, hdata⟩

/-! ### C9: boundary nodes, and C6: the step-size formula -/

/-- The branch ladder at the end of the loop body only ever changes `DT`,
`JFLAG` and `IADV`; in particular the buffers, `DTI` and the clock are
untouched, and `DT` is either kept or clipped to `DTEND - T` or
`DTHALT - T`. -/
theorem stepBranch_frame (e : Episode) (s : TState) :
    (stepBranch e s).state.T = s.T ∧ (stepBranch e s).state.DTI = s.DTI
    ∧ (stepBranch e s).state.temA = s.temA
    ∧ (stepBranch e s).state.temB = s.temB
    ∧ ((stepBranch e s).state.DT = s.DT
       ∨ (stepBranch e s).state.DT = e.DTEND - s.T
       ∨ (stepBranch e s).state.DT = DTHALTfun e - s.T) := by
  unfold stepBranch
  simp only []
  split_ifs <;> refine ⟨rfl, rfl, rfl, rfl, ?_⟩ <;>
    first
      | exact Or.inl rfl
      | exact Or.inr (Or.inl rfl)
      | exact Or.inr (Or.inr rfl)

/-- A successful full pass through the loop body preserves the boundary
entries of both buffers and `DTI`, and leaves `DT` equal to `DTI` unless
it was clipped to land exactly on `DTEND` or `DTHALT`. -/
theorem TIMSTRstep_frame (e : Episode) (s : TState) (r : StepRes)
    (h : TIMSTRstep e s = some r) :
    r.state.temA 0 = s.temA 0 ∧ r.state.temA 20 = s.temA 20
    ∧ r.state.temB 0 = s.temB 0 ∧ r.state.temB 20 = s.temB 20
    ∧ r.state.DTI = s.DTI
    ∧ (r.state.DT = s.DTI ∨ r.state.DT = e.DTEND - (s.T + s.DT)
       ∨ r.state.DT = DTHALTfun e - (s.T + s.DT)) := by
  unfold TIMSTRstep at h
  cases hadv : stepAdvance e s with
  | none =>
    rw [hadv] at h
    exact absurd h (by simp)
  | some s₁ =>
    rw [hadv, Option.map_some'] at h
    obtain rfl := Option.some.inj h
    obtain ⟨hT, hDT, hDTI, _, _, _, hA0, hA20, hB0, hB20⟩ :=
      stepAdvance_state e s s₁ hadv
    obtain ⟨hbT, hbDTI, hbA, hbB, hbDT⟩ := stepBranch_frame e s₁
    refine ⟨?_, ?_, ?_, ?_, ?_, ?_⟩
    · rw [hbA]; exact hA0
    · rw [hbA]; exact hA20
    · rw [hbB]; exact hB0
    · rw [hbB]; exact hB20
    · rw [hbDTI]; exact hDTI
    · rcases hbDT with h' | h' | h'
      · exact Or.inl (h'.trans hDT)
      · exact Or.inr (Or.inl (by rw [h', hT]))
      · exact Or.inr (Or.inr (by rw [h', hT]))

/-- Boundary entries of both buffers survive any number of loop passes. -/
theorem TIMSTRrun_bounds (e : Episode) :
    ∀ (n : ℕ) (s s' : TState), TIMSTRrun e n s = some s' →
      s'.temA 0 = s.temA 0 ∧ s'.temA 20 = s.temA 20
      ∧ s'.temB 0 = s.temB 0 ∧ s'.temB 20 = s.temB 20 := by
  intro n
  induction n with
  | zero =>
    intro s s' h
    exact absurd h (by simp [TIMSTRrun])
  | succ k ih =>
    intro s s' h
    rw [TIMSTRrun] at h
    cases hstep : TIMSTRstep e s with
    | none =>
      rw [hstep] at h
      exact absurd h (by simp)
    | some r =>
      rw [hstep] at h
      obtain ⟨hA0, hA20, hB0, hB20, -, -⟩ := TIMSTRstep_frame e s r hstep
      cases r with
      | done s₂ =>
        simp only [] at h
        obtain rfl := Option.some.inj h
        simp only [StepRes.state] at hA0 hA20 hB0 hB20
        exact ⟨hA0, hA20, hB0, hB20⟩
      | cont s₂ =>
        simp only [] at h
        simp only [StepRes.state] at hA0 hA20 hB0 hB20
        obtain ⟨g1, g2, g3, g4⟩ := ih s₂ s' h
        exact ⟨g1.trans hA0, g2.trans hA20, g3.trans hB0, g4.trans hB20⟩

/-- The probe state, already past both stopping times with `JFLAG = 2`,
takes exactly one more pass through the loop body and then breaks. -/
theorem probeStep_spec : ∃ s₁, stepAdvance probeEpisode probeState = some s₁
    ∧ TIMSTRstep probeEpisode probeState = some (.done s₁)
    ∧ TIMSTRrun probeEpisode 1 probeState = some s₁ := by
  obtain ⟨s₁, hadv⟩ := stepAdvance_isSome_of_regime1 probeEpisode probeState rfl
  obtain ⟨hT, hDT, hDTI, hJF, -⟩ := stepAdvance_state probeEpisode probeState s₁ hadv
  have hsum : s₁.T + s₁.DT = 12 := by
    rw [hT, hDT]
    norm_num [probeState]
  have hbr : stepBranch probeEpisode s₁ = .done s₁ := by
    unfold stepBranch
    simp only []
    rw [if_neg (by rw [hsum]; norm_num [probeEpisode]),
        if_neg (by rw [hJF]; norm_num [probeState]),
        if_neg (by rw [hJF]; norm_num [probeState]),
        if_neg (by rw [hJF]; norm_num [probeState])]
  have hstep : TIMSTRstep probeEpisode probeState = some (.done s₁) := by
    unfold TIMSTRstep
    rw [hadv, Option.map_some', hbr]
  refine ⟨s₁, hadv, hstep, ?_⟩
  rw [show (1 : ℕ) = 0 + 1 from rfl, TIMSTRrun, hstep]

/-- C9: boundary temperature nodes are invariant in every solver run of
every episode.  The interior update of `stepTem` writes only indices
`1 .. 19` of the 21-node grid, so after any number of loop passes the
surface and base entries of both buffers still hold the values they had
when the run started - for any episode, whatever `KRR` is.  At
initialisation, a first episode (`KRR = 0`) pins the surface node to `1`
and the base node to `0` in both buffers, and a continuation episode
(`KRR = 1, 2`) hands the previous episode's buffers through unchanged, so
the boundary entries stay fixed across the whole multi-episode
simulation. -/
theorem C9_boundary_nodes_fixed (e : Episode) (st : SimState) (n : ℕ)
    (s s' : TState) (h : TIMSTRrun e n s = some s') :
    (e.KRR = 0 →
      (TIMSTRinit e st).temA 0 = 1 ∧ (TIMSTRinit e st).temA 20 = 0
      ∧ (TIMSTRinit e st).temB 0 = 1 ∧ (TIMSTRinit e st).temB 20 = 0)
    ∧ (e.KRR ≠ 0 →
      (TIMSTRinit e st).temA 0 = st.temA 0
      ∧ (TIMSTRinit e st).temA 20 = st.temA 20
      ∧ (TIMSTRinit e st).temB 0 = st.temB 0
      ∧ (TIMSTRinit e st).temB 20 = st.temB 20)
    ∧ s'.temA 0 = s.temA 0 ∧ s'.temA 20 = s.temA 20
    ∧ s'.temB 0 = s.temB 0 ∧ s'.temB 20 = s.temB 20 := by
  obtain ⟨g1, g2, g3, g4⟩ := TIMSTRrun_bounds e n s s' h
  refine ⟨fun hk => ?_, fun hk => ?_, g1, g2, g3, g4⟩
  · refine ⟨?_, ?_, ?_, ?_⟩ <;>
      · simp only [TIMSTRinit, hk, if_pos]
        norm_num [DZ]
  · refine ⟨?_, ?_, ?_, ?_⟩ <;> simp [TIMSTRinit, hk]

/-- Witness for C9 at the probe input: one full loop pass of the probe
episode leaves the constant-1 boundary entries of both probe buffers at 1,
and initialisation indeed pins the surface node to 1 and the base to 0. -/
theorem C9_boundary_nodes_fixed_witness :
    probeEpisode.KRR = 0
    ∧ (TIMSTRinit probeEpisode (initialSim cDefault)).temA 0 = 1
    ∧ (TIMSTRinit probeEpisode (initialSim cDefault)).temA 20 = 0
    ∧ (TIMSTRrun probeEpisode 1 probeState).map
        (fun s => (s.temA 0, s.temA 20, s.temB 0, s.temB 20))
      = some (1, 1, 1, 1) := by
  obtain ⟨s₁, -, -, hrun⟩ := probeStep_spec
  obtain ⟨hinit, -, g1, g2, g3, g4⟩ :=
    C9_boundary_nodes_fixed probeEpisode (initialSim cDefault) 1
      probeState s₁ hrun
  obtain ⟨w1, w2, -, -⟩ := hinit rfl
  refine ⟨rfl, w1, w2, ?_⟩
  rw [hrun, Option.map_some', g1, g2, g3, g4]
  norm_num [probeState]

/-- C6 counterexample: the constant-rate episode with `G = 79`, `AMPL = 1`,
`DTST = 1` has strain rate `79` (shown at the probe times `0` and `1/2`),
yet the step size `TIMSTR` computes is `DZ/80` - the advective limit is
taken over `AMPL + G = 80`, not over the episode's peak strain rate `79` -
so it differs from the minimum the claim describes. -/
theorem C6_advective_bound_counterexample :
    SRATEfun { probeEpisode with G := 79 } 0 = some 79
    ∧ SRATEfun { probeEpisode with G := 79 } (1/2) = some 79
    ∧ timstrDTI 79 1 1 = DZ / 80
    ∧ timstrDTI 79 1 1 ≠ min (min (DZ ^ 2 / 2) (DZ / 79)) 1 := by
  refine ⟨?_, ?_, ?_, ?_⟩
  · simp [SRATEfun, probeEpisode]
  · simp [SRATEfun, probeEpisode]
  · unfold timstrDTI DZ
    norm_num
  · unfold timstrDTI DZ
    norm_num

/-- C6 (amended): the step size is fixed once at the head of `TIMSTR` as
`min(min(DZ^2/2, DZ/(AMPL + G)), DTST)` - the advective limit divides `DZ`
by `AMPL + G`, not by the episode's peak strain-rate magnitude - `DT`
starts equal to `DTI`, `DTI` never changes during the loop, and after each
pass `DT` is again `DTI` unless it was clipped so that the next step lands
exactly on `DTEND` or on `DTHALT`. -/
theorem C6_step_size_amended (e : Episode) (st : SimState) (s : TState)
    (r : StepRes) (h : TIMSTRstep e s = some r) :
    (TIMSTRinit e st).DTI = min (min (DZ ^ 2 / 2) (DZ / (e.AMPL + e.G))) e.DTST
    ∧ (TIMSTRinit e st).DT = (TIMSTRinit e st).DTI
    ∧ r.state.DTI = s.DTI
    ∧ (r.state.DT = s.DTI ∨ r.state.DT = e.DTEND - (s.T + s.DT)
        ∨ r.state.DT = DTHALTfun e - (s.T + s.DT)) := by
  obtain ⟨-, -, -, -, hDTI, hDT⟩ := TIMSTRstep_frame e s r h
  exact ⟨rfl, rfl, hDTI, hDT⟩

/-- Witness for the amended C6 at the probe input: the initial step size
of the probe episode, and the `DTI`/`DT` bookkeeping across the one loop
pass the probe state takes. -/
theorem C6_step_size_amended_witness :
    (TIMSTRinit probeEpisode (initialSim cDefault)).DT
      = (TIMSTRinit probeEpisode (initialSim cDefault)).DTI
    ∧ (TIMSTRstep probeEpisode probeState).elim False (fun r =>
        r.state.DTI = probeState.DTI
        ∧ (r.state.DT = probeState.DTI
           ∨ r.state.DT = probeEpisode.DTEND - (probeState.T + probeState.DT)
           ∨ r.state.DT = DTHALTfun probeEpisode
               - (probeState.T + probeState.DT))) := by
  obtain ⟨s₁, -, hstep, -⟩ := probeStep_spec
  obtain ⟨-, w2, hDTI, hDT⟩ :=
    C6_step_size_amended probeEpisode (initialSim cDefault) probeState
      (.done s₁) hstep
  refine ⟨w2, ?_⟩
  rw [hstep]
  exact ⟨hDTI, hDT⟩

end

end RiftSubsidence
